import Mathlib

/-!
# Break the Bricks: a shallow embedding of `js/myCode.js`

The game keeps all of its state in a handful of shared objects (`ball`, `player`,
`instructionBackground`, `gameInstance.sprites`, the canvas size and the audio
clips).  They are gathered here in one record `Game`, and every method of the
source becomes a function on that record.

JavaScript numbers are IEEE-754 binary64 values.  `Number` below models the finite
ones exactly: each is an integer multiple of `2 ^ (-1074)` and every arithmetic
operator rounds its exact result to the nearest representable value, ties to even.
Overflow to `Infinity`, division by zero and `NaN` are outside the model.  The counters `score`,
`lives` and `phase` only ever hold small integers and are modelled as `Int`.
-/

namespace BreakBricks

/-! ## JavaScript numbers -/

/-- A finite binary64 value, stored as the integer `quanta` with value `quanta * 2 ^ (-1074)`. -/
structure Number where
  quanta : Int
deriving DecidableEq, Repr

namespace Number

/-- The count of quanta in `1.0`. -/
@[irreducible]
def unit : Nat := 2 ^ 1074

/-- Nearest natural number to the fraction `a / b`, ties to the even neighbour. -/
def roundHalfEven (a b : Nat) : Nat :=
  let f := a / b
  let r := a % b
  if 2 * r < b then f
  else if b < 2 * r then f + 1
  else if f % 2 = 0 then f else f + 1

/-- Worker for `floorLog2`: halve `n` until it drops below two. -/
def log2Aux : Nat → Nat → Nat
  | 0, _ => 0
  | fuel + 1, n => if n < 2 then 0 else log2Aux fuel (n / 2) + 1

/-- Position of the leading bit of `n` (and `0` for `n = 0`). -/
def floorLog2 (n : Nat) : Nat := log2Aux n n

/-- Nearest binary64 (as a count of quanta) to the non-negative fraction `p / q` of quanta:
values below `2 ^ 53` quanta are spaced one quantum apart (subnormals and the first binade),
a value in `[2 ^ (52 + e), 2 ^ (53 + e))` keeps 53 significant bits, so is a multiple of `2 ^ e`. -/
def roundNat (p q : Nat) : Nat :=
  let e := floorLog2 (p / q) - 52
  roundHalfEven p (q * 2 ^ e) * 2 ^ e

/-- Nearest binary64 to the signed fraction `p / q` of quanta (rounding is symmetric in the sign). -/
def round (p : Int) (q : Nat) : Number :=
  if 0 ≤ p then ⟨(roundNat p.natAbs q : Int)⟩ else ⟨-(roundNat p.natAbs q : Int)⟩

/-- The value of the decimal literal `p / q`, e.g. `lit 6 10` for `0.6`. -/
def lit (p : Int) (q : Nat) : Number := round (p * unit) q

/-- The binary64 value `m * 2 ^ e` given by its integer significand and exponent. -/
def dbl (m : Int) (e : Int) : Number := ⟨m * ((2 ^ (e + 1074).toNat : Nat) : Int)⟩

/-- A value is a binary64 when rounding leaves it alone. -/
def IsDouble (a : Number) : Prop := round a.quanta 1 = a

instance (a : Number) : Decidable (IsDouble a) := by
  unfold IsDouble; infer_instance

instance (n : Nat) : OfNat Number n := ⟨lit n 1⟩

instance : Neg Number := ⟨fun a => ⟨-a.quanta⟩⟩

instance : LT Number := ⟨fun a b => a.quanta < b.quanta⟩

instance : LE Number := ⟨fun a b => a.quanta ≤ b.quanta⟩

instance (a b : Number) : Decidable (a < b) := inferInstanceAs (Decidable (a.quanta < b.quanta))

instance (a b : Number) : Decidable (a ≤ b) := inferInstanceAs (Decidable (a.quanta ≤ b.quanta))

instance : Add Number := ⟨fun a b => round (a.quanta + b.quanta) 1⟩

instance : Sub Number := ⟨fun a b => round (a.quanta - b.quanta) 1⟩

instance : Mul Number := ⟨fun a b => round (a.quanta * b.quanta) unit⟩

instance : Div Number := ⟨fun a b => round (a.quanta * unit * b.quanta.sign) b.quanta.natAbs⟩

instance : Mod Number := ⟨fun a b => ⟨Int.tmod a.quanta b.quanta⟩⟩

end Number

open Number (lit dbl IsDouble)

/-! ## Data model -/

/-- The audio calls of the source, recorded in the order they are made. -/
inductive Sound
  | gameMusicPlay
  | gameMusicPause
  | gameMusicRewind
  | gameMusicLoop
  | lostLife
  | losing
  | winning
  | hitPaddle
  | brickBreak
deriving DecidableEq, Repr

/-- What the source reads of the `keys` object: `r` and `enter` are the tests
`'r' in keys` and `'Enter' in keys`, `arrowRight` and `arrowLeft` the truth values of
`keys['ArrowRight']` and `keys['ArrowLeft']`. -/
structure Keys where
  r : Bool
  enter : Bool
  arrowRight : Bool
  arrowLeft : Bool
  /-- The truth value of `keys['r']`, which `GameAnimator.animate` reads; a key that is in the
  object is taken to hold a true value unless said otherwise. -/
  rValue : Bool := r
deriving DecidableEq, Repr

/-- Fields of `class Brick` (the sprite sheet and the sound clip carry no state). -/
structure Brick where
  x : Number
  y : Number
  width : Number
  height : Number
  isBroken : Bool
  frameCount : Nat
  frameIndex : Nat
  animationSpeed : Nat
  animationCounter : Nat
deriving DecidableEq, Repr

/-- The constructor `new Brick(x, y, width, height, spriteSheetSrc, frameCount, ball)`. -/
def Brick.new (x y width height : Number) (frameCount : Nat) : Brick :=
  { x := x, y := y, width := width, height := height, isBroken := false,
    frameCount := frameCount, frameIndex := 0, animationSpeed := 10, animationCounter := 0 }

/-- Fields of `class PlayerPaddle`. -/
structure PlayerPaddle where
  x : Number
  y : Number
  width : Number
  height : Number
  moveSpeed : Number
  lives : Int
  originalWidth : Number
deriving DecidableEq, Repr

/-- Fields of `class Ball`; `player` is the shared paddle, kept in `Game`. The fields
`baseSpeed = 2` and `increasedSpeed = 6` are assigned once in the constructor and never
again, so they are the constants `Ball.baseSpeed` and `Ball.increasedSpeed`. -/
structure Ball where
  posX : Number
  posY : Number
  radius : Number
  isPlaying : Bool
  isGameOver : Bool
  isGameWon : Bool
  score : Int
  originalPaddleWidth : Number
  phase : Int
  speedX : Number
  speedY : Number
  phaseMessage : String
  winSoundPlayed : Bool
deriving DecidableEq, Repr

/-- An entry of `gameInstance.sprites`. The ball, the paddle and the instruction screen are
shared objects whose state lives in `Game`; a brick is stored in the list itself. -/
inductive Sprite
  | background
  | player
  | ball
  | hearts
  | coinSprite
  | instructionBackground
  | brickResetter
  | gameAnimator
  | brick (b : Brick)
deriving DecidableEq, Repr

/-- The test `sprite instanceof Brick`. -/
def Sprite.isBrick : Sprite → Bool
  | .brick _ => true
  | _ => false

/-- The bricks of a sprite list, in list order. -/
def bricksOf : List Sprite → List Brick
  | [] => []
  | .brick b :: rest => b :: bricksOf rest
  | _ :: rest => bricksOf rest

/-- The whole mutable state of the page. -/
structure Game where
  player : PlayerPaddle
  ball : Ball
  showInstructions : Bool
  sprites : List Sprite
  tableWidth : Number
  tableHeight : Number
  sounds : List Sound
deriving DecidableEq, Repr

/-- Phase constants `GAME_PHASE.PHASE_1 .. PHASE_3`. -/
def PHASE_1 : Int := 1

/-- Second phase constant. -/
def PHASE_2 : Int := 2

/-- Third phase constant. -/
def PHASE_3 : Int := 3

/-- Constructor value `this.baseSpeed = 2`. -/
def Ball.baseSpeed : Number := 2

/-- Constructor value `this.increasedSpeed = 6`. -/
def Ball.increasedSpeed : Number := 6

/-- Modelled from the spec: `Game.addSprite` (class `Game` is not in `js/myCode.js`) registers a
sprite after the ones already registered; sprites are updated and drawn in registration order. -/
def addSprite (sprites : List Sprite) (s : Sprite) : List Sprite := sprites ++ [s]

/-! ## BrickResetter -/

/-- The inner loop `for (let j = 1; j <= 4; j += 0.6)` of `resetBricks`, entered at `j` in row `i`.
Returns the running `offset` and the sprite list when the loop condition fails, and `none` when
`fuel` iterations did not reach that point. -/
def BrickResetter.columns : Nat → Number → Number → Number → List Sprite →
    Option (Number × List Sprite)
  | 0, _, _, _, _ => none
  | fuel + 1, i, j, offset, sprites =>
    if j ≤ 4 then
      let brick := Brick.new (j * 148) ((i + offset) * 160) 70 20 4
      let sprites := addSprite sprites (Sprite.brick brick)
      let offset := if j % 4 = 0 then offset - lit 8 10 else offset
      BrickResetter.columns fuel i (j + lit 6 10) offset sprites
    else some (offset, sprites)

/-- The outer loop `for (let i = 1; i <= 4; i++)` of `resetBricks`, entered at `i`; `inner` is the
fuel handed to each run of the inner loop. -/
def BrickResetter.rows (inner : Nat) : Nat → Number → Number → List Sprite → Option (List Sprite)
  | 0, _, _, _ => none
  | fuel + 1, i, offset, sprites =>
    if i ≤ 4 then
      match BrickResetter.columns inner i 1 offset sprites with
      | some (offset, sprites) => BrickResetter.rows inner fuel (i + 1) offset sprites
      | none => none
    else some sprites

/-- Iteration budget given to each loop of `resetBricks`; the loops stop by their own
conditions long before it is used up (`BrickResetter.rows_terminates`). -/
def BrickResetter.loopFuel : Nat := 64

/-- The method `BrickResetter.resetBricks()`. The `none` branch stands for loops that outlast
the budget; `BrickResetter.rows_terminates` shows it is never taken. -/
def BrickResetter.resetBricks (g : Game) : Game :=
  if !g.showInstructions then
    let sprites := g.sprites.filter (fun sprite => !sprite.isBrick)
    match BrickResetter.rows BrickResetter.loopFuel BrickResetter.loopFuel 1 0 sprites with
    | some sprites => { g with sprites := sprites }
    | none => { g with sprites := sprites }
  else g

/-! ## GameResetter -/

/-- The method `GameResetter.reset()`, statement by statement. -/
def GameResetter.reset (g : Game) : Game :=
  let g := { g with ball := { g.ball with isGameOver := false } }
  let g := { g with ball := { g.ball with isGameWon := false } }
  let g := { g with ball := { g.ball with isPlaying := false } }
  let g := { g with ball := { g.ball with score := 0 } }
  let g := BrickResetter.resetBricks g
  let g := { g with ball := { g.ball with posX := g.player.x + g.player.width / 2 } }
  let g := { g with ball := { g.ball with posY := g.player.y - 15 } }
  let g := { g with ball := { g.ball with speedX := 2 } }
  let g := { g with ball := { g.ball with speedY := -2 } }
  let g := { g with player := { g.player with width := g.player.originalWidth } }
  let g := { g with ball := { g.ball with phase := PHASE_1 } }
  let g := { g with ball := { g.ball with phaseMessage := "Phase 1: The Beginning" } }
  let g := { g with player := { g.player with lives := 3 } }
  { g with sounds := g.sounds ++ [Sound.gameMusicPlay, Sound.gameMusicLoop] }

/-! ## Ball -/

/-- The method `Ball.initializeSpeed()`. -/
def Ball.initializeSpeed (b : Ball) : Ball :=
  if b.phase = PHASE_1 then
    { b with speedX := Ball.baseSpeed, speedY := -Ball.baseSpeed }
  else if b.phase = PHASE_2 ∨ b.phase = PHASE_3 then
    { b with speedX := Ball.increasedSpeed, speedY := -Ball.increasedSpeed }
  else b

/-- The method `Ball.increaseSpeed()`. -/
def Ball.increaseSpeed (b : Ball) : Ball :=
  { b with speedX := Ball.increasedSpeed, speedY := -Ball.increasedSpeed }

/-- The method `Ball.handlePhase()`; it writes the ball and the width of the paddle. -/
def Ball.handlePhase (g : Game) : Game :=
  let g :=
    if g.ball.score ≥ 5 ∧ g.ball.phase = PHASE_1 then
      let ball := { g.ball with phase := PHASE_2, phaseMessage := "Phase 2 Speed Up!" }
      { g with ball := Ball.increaseSpeed ball }
    else g
  let g :=
    if g.ball.score ≥ 15 ∧ g.ball.phase = PHASE_2 then
      { g with ball := { g.ball with phase := PHASE_3, phaseMessage := "Phase 3 Final Challenge!" } }
    else g
  if g.ball.score ≥ 10 ∧ g.player.width = g.ball.originalPaddleWidth then
    { g with
      player := { g.player with width := g.ball.originalPaddleWidth / 2 }
      ball := { g.ball with phaseMessage := "Paddle Shrunk  Half Size!" } }
  else g

/-- First statement of `Ball.update`: restart with `r` while the game is over. -/
def Ball.restart (g : Game) (keys : Keys) : Game :=
  if keys.r ∧ g.ball.isGameOver then
    let g := GameResetter.reset g
    { g with sounds := g.sounds ++ [Sound.gameMusicPlay, Sound.gameMusicLoop] }
  else g

/-- Second statement of `Ball.update`: launch the ball with Enter. -/
def Ball.start (g : Game) (keys : Keys) : Game :=
  if keys.enter ∧ ¬ g.ball.isPlaying ∧ ¬ g.ball.isGameOver ∧ ¬ g.ball.isGameWon then
    let g := { g with ball := { g.ball with isPlaying := true } }
    let g := { g with ball := { g.ball with posX := g.player.x + g.player.width / 2 } }
    let g := { g with ball := { g.ball with posY := g.player.y - 15 } }
    { g with ball := Ball.initializeSpeed g.ball }
  else g

/-- The three wall tests of `Ball.update`, in source order. -/
def Ball.walls (g : Game) : Game :=
  let g := if g.ball.posY + g.ball.radius < 140 then
      { g with ball := { g.ball with speedY := 2 } } else g
  let g := if g.ball.posX + g.ball.radius < 130 then
      { g with ball := { g.ball with speedX := 2 } } else g
  if g.ball.posX + g.ball.radius > g.tableWidth - 130 then
    { g with ball := { g.ball with speedX := -2 } } else g

/-- The bottom test of `Ball.update`: `posY - radius > tableHeight - 145`. -/
def Ball.pastBottom (g : Game) : Prop :=
  g.ball.posY - g.ball.radius > g.tableHeight - 145

instance (g : Game) : Decidable (Ball.pastBottom g) := by
  unfold Ball.pastBottom; infer_instance

/-- The bottom-exit block of `Ball.update`. -/
def Ball.bottom (g : Game) : Game :=
  if Ball.pastBottom g then
    let g := { g with ball := { g.ball with isPlaying := false } }
    let g := { g with player := { g.player with lives := g.player.lives - 1 } }
    let g := { g with sounds := g.sounds ++ [Sound.lostLife] }
    if g.player.lives = 0 then
      { g with
        ball := { g.ball with isGameOver := true }
        sounds := g.sounds ++ [Sound.gameMusicPause, Sound.gameMusicRewind, Sound.losing] }
    else
      { g with ball := Ball.initializeSpeed g.ball }
  else g

/-- The paddle test of `Ball.update`. -/
def Ball.hitsPaddle (g : Game) : Prop :=
  g.ball.posX > g.player.x ∧ g.ball.posX < g.player.x + g.player.width ∧
    g.ball.posY + g.ball.radius > g.player.y

instance (g : Game) : Decidable (Ball.hitsPaddle g) := by
  unfold Ball.hitsPaddle; infer_instance

/-- The paddle-collision block of `Ball.update`. -/
def Ball.paddle (g : Game) : Game :=
  if Ball.hitsPaddle g then
    { g with
      ball := { g.ball with speedY := -g.ball.speedY }
      sounds := g.sounds ++ [Sound.hitPaddle] }
  else g

/-- The position update `posX += speedX; posY += speedY` of `Ball.update`. -/
def Ball.move (g : Game) : Game :=
  let g := { g with ball := { g.ball with posX := g.ball.posX + g.ball.speedX } }
  { g with ball := { g.ball with posY := g.ball.posY + g.ball.speedY } }

/-- The win check closing `Ball.update`. -/
def Ball.winCheck (g : Game) : Game :=
  if g.ball.score ≥ 24 then
    { g with
      ball := { g.ball with isGameWon := true }
      sounds := g.sounds ++ [Sound.gameMusicPause, Sound.gameMusicRewind, Sound.winning] }
  else g

/-- The statements of `Ball.update` below its early return, in source order: walls, bottom
exit, paddle, position, `handlePhase()`, win check. -/
def Ball.advance (g : Game) : Game :=
  Ball.winCheck (Ball.handlePhase (Ball.move (Ball.paddle (Ball.bottom (Ball.walls g)))))

/-- The method `Ball.update(sprites, keys)`. -/
def Ball.update (g : Game) (keys : Keys) : Game :=
  let g := Ball.restart g keys
  let g := Ball.start g keys
  if g.ball.isGameOver ∨ g.ball.isGameWon then g
  else Ball.advance g

/-! ## Brick -/

/-- The collision test of `Brick.update` without its last conjunct `!this.isBroken`. -/
def Brick.overlaps (b : Brick) (ball : Ball) : Prop :=
  ball.posY - ball.radius < b.y + b.height ∧
    ball.posY + ball.radius > b.y ∧
    ball.posX > b.x ∧
    ball.posX < b.x + b.width

instance (b : Brick) (ball : Ball) : Decidable (Brick.overlaps b ball) := by
  unfold Brick.overlaps; infer_instance

/-- The animation block of `Brick.update`: advance the frame counter and, every
`animationSpeed` updates, the frame shown. -/
def Brick.animate (b : Brick) : Brick :=
  let b := { b with animationCounter := b.animationCounter + 1 }
  if b.animationCounter ≥ b.animationSpeed then
    { b with frameIndex := (b.frameIndex + 1) % b.frameCount, animationCounter := 0 }
  else b

/-- The method `Brick.update(sprites, keys)`: the brick after the call and the game after it. -/
def Brick.update (b : Brick) (g : Game) : Brick × Game :=
  if g.ball.isGameOver then (b, g)
  else
    let b := Brick.animate b
    if Brick.overlaps b g.ball ∧ ¬ b.isBroken then
      ({ b with isBroken := true },
        { g with
          ball := { g.ball with speedY := g.ball.speedY * (-1), score := g.ball.score + 1 }
          sounds := g.sounds ++ [Sound.brickBreak] })
    else (b, g)

/-- The bricks of one frame updated one after another, each seeing the ball as the
previous brick left it. -/
def updateBricks : List Brick → Game → List Brick × Game
  | [], g => ([], g)
  | b :: rest, g =>
    let r := Brick.update b g
    let rs := updateBricks rest r.2
    (r.1 :: rs.1, rs.2)

/-- Whether a brick is one that its update breaks: still unbroken and overlapping the ball. -/
def Brick.hits (ball : Ball) (b : Brick) : Bool := !b.isBroken && decide (Brick.overlaps b ball)

/-- A speed whose sign was reversed `k` times, that is `(-1) ^ k` times the speed. -/
def flipped (k : Nat) (s : Number) : Number := if k % 2 = 0 then s else -s

/-! ## PlayerPaddle -/

/-- The method `PlayerPaddle.update(sprites, keys)`; it reads the shared `ball`. -/
def PlayerPaddle.update (g : Game) (keys : Keys) : Game :=
  if g.ball.isGameOver then g
  else
    let g :=
      if keys.arrowRight then
        if g.player.x < 590 then
          { g with player := { g.player with x := g.player.x + g.player.moveSpeed } }
        else g
      else g
    if keys.arrowLeft then
      if g.player.x ≥ lit 12062 100 then
        { g with player := { g.player with x := g.player.x - g.player.moveSpeed } }
      else g
    else g

/-! ## InstructionBackground, the frame loop and GameAnimator -/

/-- The method `InstructionBackground.update(sprites, keys)`. -/
def InstructionBackground.update (g : Game) (keys : Keys) : Game :=
  if keys.enter ∧ g.showInstructions then
    let g := { g with showInstructions := false }
    let g := { g with sounds := g.sounds ++ [Sound.gameMusicPlay] }
    BrickResetter.resetBricks g
  else g

/-- The sprites registered at the end of the file, in registration order. -/
def registeredSprites : List Sprite :=
  [Sprite.background, Sprite.player, Sprite.ball, Sprite.hearts, Sprite.coinSprite,
    Sprite.instructionBackground, Sprite.brickResetter, Sprite.gameAnimator]

/-- The `update(sprites, keys)` method of the sprite registered at position `i`, by class.
`Background.update` and `BrickResetter.update` are empty, `Heart.update` and
`CoinSprite.update` only advance animation counters that the page does not record, and
`GameAnimator` defines no `update` of its own; a brick mutates itself where it is registered. -/
def Game.updateSprite (keys : Keys) (i : Nat) : Sprite → Game → Game
  | Sprite.player, g => PlayerPaddle.update g keys
  | Sprite.ball, g => Ball.update g keys
  | Sprite.instructionBackground, g => InstructionBackground.update g keys
  | Sprite.brick b, g =>
    let r := Brick.update b g
    { r.2 with sprites := r.2.sprites.set i (Sprite.brick r.1) }
  | _, g => g

/-- Modelled from the spec: the loop of `Game.update()` (class `Game` is not in
`js/myCode.js`), which hands the held keys to the `update` of every registered sprite in
registration order. It is entered at position `i` and reads the sprite list as it stands when
each position comes up; `none` means that `fuel` iterations did not reach the end of the list. -/
def Game.updateFrom (keys : Keys) : Nat → Nat → Game → Option Game
  | 0, _, _ => none
  | fuel + 1, i, g =>
    match g.sprites.get? i with
    | none => some g
    | some s => Game.updateFrom keys fuel (i + 1) (Game.updateSprite keys i s g)

/-- Modelled from the spec: `Game.update()`, one pass over the registered sprites. The list
grows by at most the 24 bricks of `resetBricks` during a pass, hence the budget. -/
def Game.update (g : Game) (keys : Keys) : Option Game :=
  Game.updateFrom keys (g.sprites.length + 25) 0 g

/-- The method `GameAnimator.animate()` up to its drawing calls and the request for the next
frame: the `switch (true)` on `isGameOver`, then `isGameWon`, then the default branch. -/
def GameAnimator.animate (g : Game) (keys : Keys) : Option Game :=
  if g.ball.isGameOver then
    some (if keys.rValue then GameResetter.reset g else g)
  else if g.ball.isGameWon then
    some (if keys.rValue then GameResetter.reset g else g)
  else Game.update g keys

/-- The number of assignments `gameMusic.loop = true` recorded so far. The source makes one in
`GameResetter.reset()` and one right after the call of `reset()` in `Ball.update`, nowhere else
once the page runs, so a step that leaves this number alone has not called `reset()`. -/
def Game.loopEvents (g : Game) : Nat := g.sounds.count Sound.gameMusicLoop

/-! ## A concrete page -/

/-- The keys with `r` released, whichever way it is read. -/
def Keys.withoutR (keys : Keys) : Keys := { keys with r := false, rValue := false }

/-- No key held. -/
def noKeys : Keys := { r := false, enter := false, arrowRight := false, arrowLeft := false }

/-- Only `r` held. -/
def rKey : Keys := { r := true, enter := false, arrowRight := false, arrowLeft := false }

/-- Enter and both arrows held, `r` not. -/
def allButR : Keys := { r := false, enter := true, arrowRight := true, arrowLeft := true }

/-- Only the right arrow held. -/
def rightKey : Keys := { r := false, enter := false, arrowRight := true, arrowLeft := false }

/-- Only the left arrow held. -/
def leftKey : Keys := { r := false, enter := false, arrowRight := false, arrowLeft := true }

/-- The objects built at the end of the file for a canvas of the given size (class `Game`,
which owns the canvas, is not in `js/myCode.js`), before any brick exists. -/
def initialGame (tableWidth tableHeight : Number) : Game :=
  let player : PlayerPaddle :=
    { x := tableWidth / lit 225 100, y := tableHeight / lit 13 10, width := 90, height := 10,
      moveSpeed := 5, lives := 3, originalWidth := 90 }
  let ball : Ball :=
    { posX := player.x, posY := player.y, radius := 8, isPlaying := false, isGameOver := false,
      isGameWon := false, score := 0, originalPaddleWidth := player.width, phase := PHASE_1,
      speedX := Ball.baseSpeed, speedY := -Ball.baseSpeed,
      phaseMessage := "Phase 1  The Beginning", winSoundPlayed := false }
  { player := player, ball := ball, showInstructions := true,
    sprites := [Sprite.background, Sprite.player, Sprite.ball, Sprite.hearts, Sprite.coinSprite,
      Sprite.instructionBackground, Sprite.brickResetter, Sprite.gameAnimator],
    tableWidth := tableWidth, tableHeight := tableHeight, sounds := [Sound.gameMusicPlay] }

/-- The page of an 800 by 600 canvas with the instructions screen off and no brick yet. -/
def playGame : Game := { initialGame 800 600 with showInstructions := false }

/-- The page late in a game: phase 3, paddle halved, one life left, a score of 24 not yet
seen by the win check, and the ball falling below the bottom line. -/
def lastLifeGame : Game :=
  { playGame with
    player := { playGame.player with width := 45, lives := 1 }
    ball := { playGame.ball with
      posY := 500, score := 24, phase := PHASE_3, isPlaying := true, speedX := 6, speedY := 6 } }

/-- The page in mid-play with a score of 5 and the ball in the open, moving down and left. -/
def downLeftGame : Game :=
  { playGame with
    ball := { playGame.ball with
      posX := 400, posY := 300, score := 5, isPlaying := true, speedX := -2, speedY := 2 } }

/-- The page at game over after the paddle was halved (score 10 or more), paddle at `x = 300`. -/
def shrunkGame : Game :=
  { playGame with
    player := { playGame.player with x := 300, width := 45, lives := 0 }
    ball := { playGame.ball with
      posY := 500, score := 12, phase := PHASE_2, isGameOver := true, speedX := 6, speedY := 6 } }

/-- The page `playGame` with the paddle moved to abscissa `x`. -/
def paddleAt (x : Number) : Game := { playGame with player := { playGame.player with x := x } }

/-- The page after a win: 24 bricks broken, `isGameWon` set, the game not over. -/
def wonGame : Game :=
  { playGame with
    player := { playGame.player with width := 45, lives := 2 }
    ball := { playGame.ball with
      posX := 400, posY := 200, score := 24, phase := PHASE_3, isPlaying := true,
      isGameWon := true, speedX := 6, speedY := 6 } }

/-- Two unbroken bricks over the ball of `downLeftGame`, a broken one there too, and the
first brick of the layout, which is far from the ball. -/
def sampleBricks : List Brick :=
  [Brick.new 380 290 70 20 4, Brick.new 390 295 70 20 4,
    { Brick.new 380 290 70 20 4 with isBroken := true }, Brick.new 148 160 70 20 4]

/-! ## Operations on the page -/

/-- The state-changing operations the claims speak of. -/
inductive Op
  | ballUpdate (keys : Keys)
  | brickUpdate (b : Brick)
  | paddleUpdate (keys : Keys)
  | reset
deriving DecidableEq, Repr

/-- The page after one operation (for a brick: the page its update leaves). -/
def Op.apply : Op → Game → Game
  | .ballUpdate keys, g => Ball.update g keys
  | .brickUpdate b, g => (Brick.update b g).2
  | .paddleUpdate keys, g => PlayerPaddle.update g keys
  | .reset, g => GameResetter.reset g

/-- The page after a sequence of operations, first to last. -/
def run : List Op → Game → Game
  | [], g => g
  | op :: ops, g => run ops (op.apply g)

/-! ## The brick layout, as the loops of `resetBricks` compute it -/

/-- The step `0.6` of the inner loop. -/
def BrickResetter.step : Number := lit 6 10

/-- The values the loop variable `j` takes: `1` and the running sums `j + 0.6`, which in
binary64 are 1, 1.6, 2.2, 2.8000000000000003, 3.4000000000000004 and 4. -/
def BrickResetter.columnValues : List Number :=
  [1, lit 16 10, lit 22 10, dbl 6305039478318695 (-51), dbl 7656119366529844 (-51), 4]

/-- The row index `i` of each row with the value `offset` holds during that row: `0` and the
running differences `offset - 0.8`, in binary64 0, -0.8, -1.6 and -2.4000000000000004. -/
def BrickResetter.rowOffsets : List (Number × Number) :=
  [(1, 0), (2, -lit 8 10), (3, -lit 16 10), (4, -dbl 5404319552844596 (-51))]

/-- One row of bricks: a brick per column value, at `x = j * 148`, `y = (i + offset) * 160`. -/
def BrickResetter.layoutRow (row : Number × Number) : List Brick :=
  BrickResetter.columnValues.map
    (fun j => Brick.new (j * 148) ((row.1 + row.2) * 160) 70 20 4)

/-- The 24 bricks in the order they are created. -/
def BrickResetter.layout : List Brick :=
  BrickResetter.rowOffsets.flatMap BrickResetter.layoutRow

/-- The width invariant of C6 relative to the baseline `c`. -/
def WidthInv (c : Number) (g : Game) : Prop :=
  (g.player.width = c ∨ g.player.width = c / 2) ∧
    g.player.originalWidth = c ∧ g.ball.originalPaddleWidth = c

/-! ## Facts about the number model -/

namespace Number

theorem roundHalfEven_mul_right (a b c : Nat) (hc : 0 < c) :
    roundHalfEven (a * c) (b * c) = roundHalfEven a b := by
  unfold roundHalfEven
  simp only [Nat.mul_div_mul_right a b hc, Nat.mul_mod_mul_right]
  have h1 : 2 * (a % b * c) < b * c ↔ 2 * (a % b) < b := by
    rw [← Nat.mul_assoc]
    exact Nat.mul_lt_mul_right hc
  have h2 : b * c < 2 * (a % b * c) ↔ b < 2 * (a % b) := by
    rw [← Nat.mul_assoc]
    exact Nat.mul_lt_mul_right hc
  simp only [h1, h2]

theorem roundNat_mul_right (p c : Nat) (hc : 0 < c) : roundNat (p * c) c = roundNat p 1 := by
  unfold roundNat
  simp only [Nat.mul_div_cancel p hc, Nat.div_one]
  have h := roundHalfEven_mul_right p (1 * 2 ^ (floorLog2 p - 52)) c hc
  rw [← h]
  congr 2
  ring

theorem roundNat_zero (q : Nat) : roundNat 0 q = 0 := by
  simp [roundNat, roundHalfEven, floorLog2, log2Aux]

theorem neg_def (a : Number) : -a = ⟨-a.quanta⟩ := rfl

theorem round_neg (p : Int) (q : Nat) : round (-p) q = -round p q := by
  rw [neg_def]
  rcases lt_trichotomy p 0 with h | h | h
  · have h1 : (0 : Int) ≤ -p := by omega
    have h2 : ¬ (0 : Int) ≤ p := by omega
    simp only [round, h1, h2, if_true, if_false, Int.natAbs_neg, Int.neg_neg]
  · subst h
    simp [round, roundNat_zero]
  · have h1 : ¬ (0 : Int) ≤ -p := by omega
    have h2 : (0 : Int) ≤ p := by omega
    simp only [round, h1, h2, if_true, if_false, Int.natAbs_neg]

theorem unit_pos : 0 < unit := by
  unfold unit
  positivity

theorem one_quanta : (1 : Number).quanta = (unit : Int) := by decide!

/-- Multiplying a binary64 by `-1` negates it exactly. -/
theorem mul_neg_one (a : Number) (h : IsDouble a) : a * (-1) = -a := by
  show round (a.quanta * (-(1 : Number).quanta)) unit = -a
  rw [one_quanta, Int.mul_neg, round_neg]
  have h3 : round (a.quanta * (unit : Int)) unit = round a.quanta 1 := by
    unfold round
    have e1 : (a.quanta * (unit : Int)).natAbs = a.quanta.natAbs * unit := by
      rw [Int.natAbs_mul, Int.natAbs_ofNat]
    have e2 : (0 ≤ a.quanta * (unit : Int)) ↔ 0 ≤ a.quanta := by
      have hu : (0 : Int) < (unit : Int) := by exact_mod_cast unit_pos
      constructor
      · intro h0
        by_contra hn
        have : a.quanta * (unit : Int) < 0 := Int.mul_neg_of_neg_of_pos (by omega) hu
        omega
      · intro h0
        exact Int.mul_nonneg h0 (le_of_lt hu)
    simp only [e1, e2, roundNat_mul_right _ _ unit_pos]
  rw [h3, h]

theorem neg_neg (a : Number) : - -a = a := by
  rw [neg_def, neg_def]
  simp

theorem isDouble_neg (a : Number) (h : IsDouble a) : IsDouble (-a) := by
  unfold IsDouble at *
  show round (-a.quanta) 1 = -a
  rw [round_neg, h]

end Number

/-! ## Facts about the loops of `resetBricks` -/

theorem BrickResetter.columns_append (pre : List Sprite) :
    ∀ (fuel : Nat) (i j offset : Number) (l : List Sprite),
      BrickResetter.columns fuel i j offset (pre ++ l) =
        (BrickResetter.columns fuel i j offset l).map (fun r => (r.1, pre ++ r.2)) := by
  intro fuel
  induction fuel with
  | zero => intro i j offset l; rfl
  | succ n ih =>
    intro i j offset l
    simp only [BrickResetter.columns]
    split
    · simp only [addSprite, List.append_assoc]
      exact ih _ _ _ _
    · rfl

theorem BrickResetter.rows_append (inner : Nat) (pre : List Sprite) :
    ∀ (fuel : Nat) (i offset : Number) (l : List Sprite),
      BrickResetter.rows inner fuel i offset (pre ++ l) =
        (BrickResetter.rows inner fuel i offset l).map (fun r => pre ++ r) := by
  intro fuel
  induction fuel with
  | zero => intro i offset l; rfl
  | succ n ih =>
    intro i offset l
    simp only [BrickResetter.rows]
    split
    · rw [BrickResetter.columns_append]
      cases BrickResetter.columns inner i 1 offset l with
      | none => rfl
      | some r => exact ih _ _ _
    · rfl

theorem BrickResetter.columns_fuel_mono :
    ∀ (fuel k : Nat) (i j offset : Number) (l : List Sprite) (r : Number × List Sprite),
      BrickResetter.columns fuel i j offset l = some r →
        BrickResetter.columns (fuel + k) i j offset l = some r := by
  intro fuel
  induction fuel with
  | zero => intro k i j offset l r h; simp [BrickResetter.columns] at h
  | succ n ih =>
    intro k i j offset l r h
    rw [Nat.add_right_comm]
    simp only [BrickResetter.columns] at h ⊢
    split
    · rename_i hj
      rw [if_pos hj] at h
      exact ih _ _ _ _ _ _ h
    · rename_i hj
      rw [if_neg hj] at h
      exact h

theorem BrickResetter.rows_fuel_mono (inner m : Nat) :
    ∀ (fuel k : Nat) (i offset : Number) (l r : List Sprite),
      BrickResetter.rows inner fuel i offset l = some r →
        BrickResetter.rows (inner + m) (fuel + k) i offset l = some r := by
  intro fuel
  induction fuel with
  | zero => intro k i offset l r h; simp [BrickResetter.rows] at h
  | succ n ih =>
    intro k i offset l r h
    rw [Nat.add_right_comm]
    simp only [BrickResetter.rows] at h ⊢
    split
    · rename_i hi
      rw [if_pos hi] at h
      cases hc : BrickResetter.columns inner i 1 offset l with
      | none => rw [hc] at h; simp at h
      | some c =>
        rw [hc] at h
        rw [BrickResetter.columns_fuel_mono inner m _ _ _ _ _ hc]
        exact ih _ _ _ _ _ h
    · rename_i hi
      rw [if_neg hi] at h
      exact h

/-- Seven tests of the inner condition and five of the outer one run the loops to their end. -/
theorem BrickResetter.rows_seven_five :
    BrickResetter.rows 7 5 1 0 [] = some (BrickResetter.layout.map Sprite.brick) := by
  decide!

/-- With any budget of at least seven inner and five outer iterations the loops stop by their
own conditions, having appended the 24 bricks of the layout to the list they started from. -/
theorem BrickResetter.rows_terminates (inner outer : Nat) (hi : 7 ≤ inner) (ho : 5 ≤ outer)
    (sprites : List Sprite) :
    BrickResetter.rows inner outer 1 0 sprites =
      some (sprites ++ BrickResetter.layout.map Sprite.brick) := by
  obtain ⟨m, rfl⟩ := Nat.exists_eq_add_of_le hi
  obtain ⟨k, rfl⟩ := Nat.exists_eq_add_of_le ho
  have h := BrickResetter.rows_fuel_mono 7 m 5 k 1 0 [] _ BrickResetter.rows_seven_five
  have h2 := BrickResetter.rows_append (7 + m) sprites (5 + k) 1 0 []
  rw [List.append_nil] at h2
  rw [h2, h]
  rfl

theorem bricksOf_append (l₁ l₂ : List Sprite) : bricksOf (l₁ ++ l₂) = bricksOf l₁ ++ bricksOf l₂ := by
  induction l₁ with
  | nil => rfl
  | cons s rest ih => cases s <;> simp [bricksOf, ih]

theorem bricksOf_filter (l : List Sprite) :
    bricksOf (l.filter (fun sprite => !sprite.isBrick)) = [] := by
  induction l with
  | nil => rfl
  | cons s rest ih =>
    rw [List.filter_cons]
    cases s <;> exact ih

theorem bricksOf_map (l : List Brick) : bricksOf (l.map Sprite.brick) = l := by
  induction l with
  | nil => rfl
  | cons b rest ih => simp [bricksOf, ih]

theorem filter_map_brick (l : List Brick) :
    (l.map Sprite.brick).filter (fun sprite => !sprite.isBrick) = [] := by
  induction l with
  | nil => rfl
  | cons b rest ih =>
    rw [List.map_cons, List.filter_cons]
    exact ih

theorem BrickResetter.resetBricks_eq (g : Game) (h : g.showInstructions = false) :
    BrickResetter.resetBricks g =
      { g with sprites := g.sprites.filter (fun sprite => !sprite.isBrick) ++
          BrickResetter.layout.map Sprite.brick } := by
  unfold BrickResetter.resetBricks
  rw [if_pos (by rw [h]; rfl)]
  show (match BrickResetter.rows _ _ 1 0 _ with
    | some sprites => { g with sprites := sprites }
    | none => _) = _
  rw [BrickResetter.rows_terminates _ _ (by decide) (by decide)]

/-! ## Facts about the steps of `Ball.update` -/

theorem Ball.restart_of_not_over (g : Game) (keys : Keys) (h : g.ball.isGameOver = false) :
    Ball.restart g keys = g := by
  simp [Ball.restart, h]

theorem Ball.initializeSpeed_eq (b : Ball) :
    ∃ sx sy, Ball.initializeSpeed b = { b with speedX := sx, speedY := sy } := by
  unfold Ball.initializeSpeed
  split_ifs <;> exact ⟨_, _, rfl⟩

theorem Ball.start_eq (g : Game) (keys : Keys) :
    ∃ sx sy, Ball.start g keys =
      if keys.enter ∧ ¬ g.ball.isPlaying ∧ ¬ g.ball.isGameOver ∧ ¬ g.ball.isGameWon then
        { g with ball := { g.ball with
            isPlaying := true
            posX := g.player.x + g.player.width / 2
            posY := g.player.y - 15
            speedX := sx
            speedY := sy } }
      else g := by
  unfold Ball.start
  dsimp only
  split_ifs
  · obtain ⟨sx, sy, h⟩ := Ball.initializeSpeed_eq
      { g.ball with isPlaying := true, posX := g.player.x + g.player.width / 2,
                    posY := g.player.y - 15 }
    exact ⟨sx, sy, by rw [h]⟩
  · exact ⟨g.ball.speedX, g.ball.speedY, rfl⟩

theorem Ball.walls_eq (g : Game) :
    ∃ sx sy, Ball.walls g = { g with ball := { g.ball with speedX := sx, speedY := sy } } := by
  unfold Ball.walls
  dsimp only
  split_ifs <;> exact ⟨_, _, rfl⟩

theorem Ball.bottom_eq (g : Game) :
    ∃ sx sy snd, Ball.bottom g =
      if Ball.pastBottom g then
        { g with
          ball := { g.ball with
            isPlaying := false
            isGameOver := g.ball.isGameOver || decide (g.player.lives - 1 = 0)
            speedX := sx
            speedY := sy }
          player := { g.player with lives := g.player.lives - 1 }
          sounds := snd }
      else g := by
  unfold Ball.bottom
  dsimp only
  split_ifs with h1 h2
  · exact ⟨g.ball.speedX, g.ball.speedY,
      g.sounds ++ [Sound.lostLife] ++ [Sound.gameMusicPause, Sound.gameMusicRewind, Sound.losing],
      by simp [h2]⟩
  · obtain ⟨sx, sy, h⟩ := Ball.initializeSpeed_eq { g.ball with isPlaying := false }
    exact ⟨sx, sy, g.sounds ++ [Sound.lostLife], by rw [h]; simp [h2]⟩
  · exact ⟨g.ball.speedX, g.ball.speedY, g.sounds, rfl⟩

theorem Ball.paddle_eq (g : Game) :
    ∃ sy snd, Ball.paddle g = { g with ball := { g.ball with speedY := sy }, sounds := snd } := by
  unfold Ball.paddle
  split_ifs <;> exact ⟨_, _, rfl⟩

theorem Ball.winCheck_eq (g : Game) :
    ∃ snd, Ball.winCheck g =
      { g with
        ball := { g.ball with isGameWon := g.ball.isGameWon || decide (g.ball.score ≥ 24) }
        sounds := snd } := by
  unfold Ball.winCheck
  split_ifs with h
  · exact ⟨g.sounds ++ [Sound.gameMusicPause, Sound.gameMusicRewind, Sound.winning], by simp [h]⟩
  · exact ⟨g.sounds, by simp [h]⟩

theorem Ball.handlePhase_eq (g : Game) :
    ∃ ph sx sy msg w, Ball.handlePhase g =
      { g with
        ball := { g.ball with phase := ph, speedX := sx, speedY := sy, phaseMessage := msg }
        player := { g.player with width := w } } := by
  unfold Ball.handlePhase Ball.increaseSpeed
  dsimp only
  split_ifs <;> exact ⟨_, _, _, _, _, rfl⟩

theorem Ball.pastBottom_walls (g : Game) : Ball.pastBottom (Ball.walls g) ↔ Ball.pastBottom g := by
  obtain ⟨sx, sy, h⟩ := Ball.walls_eq g
  rw [h]
  rfl

theorem Ball.advance_eq (g : Game) :
    ∃ px py sx sy ph msg w snd, Ball.advance g =
      { g with
        ball := { g.ball with
          isPlaying := g.ball.isPlaying && !decide (Ball.pastBottom g)
          isGameOver := g.ball.isGameOver ||
            (decide (Ball.pastBottom g) && decide (g.player.lives - 1 = 0))
          isGameWon := g.ball.isGameWon || decide (g.ball.score ≥ 24)
          posX := px, posY := py, speedX := sx, speedY := sy, phase := ph, phaseMessage := msg }
        player := { g.player with
          lives := if Ball.pastBottom g then g.player.lives - 1 else g.player.lives
          width := w }
        sounds := snd } := by
  obtain ⟨sx1, sy1, h1⟩ := Ball.walls_eq g
  obtain ⟨sx2, sy2, snd2, h2⟩ := Ball.bottom_eq (Ball.walls g)
  obtain ⟨sy3, snd3, h3⟩ := Ball.paddle_eq (Ball.bottom (Ball.walls g))
  obtain ⟨ph, sx5, sy5, msg, w, h5⟩ :=
    Ball.handlePhase_eq (Ball.move (Ball.paddle (Ball.bottom (Ball.walls g))))
  obtain ⟨snd6, h6⟩ := Ball.winCheck_eq
    (Ball.handlePhase (Ball.move (Ball.paddle (Ball.bottom (Ball.walls g)))))
  refine ⟨(Ball.advance g).ball.posX, (Ball.advance g).ball.posY, (Ball.advance g).ball.speedX,
    (Ball.advance g).ball.speedY, (Ball.advance g).ball.phase, (Ball.advance g).ball.phaseMessage,
    (Ball.advance g).player.width, (Ball.advance g).sounds, ?_⟩
  unfold Ball.advance
  rw [h6, h5]
  unfold Ball.move
  rw [h3, h2]
  by_cases hb : Ball.pastBottom g
  · rw [if_pos ((Ball.pastBottom_walls g).2 hb), h1]
    simp [hb]
  · rw [if_neg (fun h => hb ((Ball.pastBottom_walls g).1 h)), h1]
    simp [hb]

theorem Ball.start_flags (g : Game) (keys : Keys) :
    (Ball.start g keys).ball.isGameOver = g.ball.isGameOver ∧
    (Ball.start g keys).ball.isGameWon = g.ball.isGameWon ∧
    (Ball.start g keys).ball.score = g.ball.score ∧
    (Ball.start g keys).ball.phase = g.ball.phase ∧
    (Ball.start g keys).ball.originalPaddleWidth = g.ball.originalPaddleWidth ∧
    (Ball.start g keys).player = g.player := by
  obtain ⟨sx, sy, h⟩ := Ball.start_eq g keys
  rw [h]
  split_ifs <;> simp

theorem Ball.update_of_not_over (g : Game) (keys : Keys)
    (hov : g.ball.isGameOver = false) (hwon : g.ball.isGameWon = false) :
    Ball.update g keys = Ball.advance (Ball.start g keys) := by
  have hs := Ball.start_flags g keys
  unfold Ball.update
  rw [Ball.restart_of_not_over g keys hov]
  simp [hs.1, hs.2.1, hov, hwon]

/-! ## Facts about `Brick.update` -/

theorem Brick.animate_fields (b : Brick) :
    (Brick.animate b).x = b.x ∧ (Brick.animate b).y = b.y ∧
    (Brick.animate b).width = b.width ∧ (Brick.animate b).height = b.height ∧
    (Brick.animate b).isBroken = b.isBroken := by
  unfold Brick.animate
  dsimp only
  split_ifs <;> simp

theorem Brick.overlaps_animate (b : Brick) (ball : Ball) :
    Brick.overlaps (Brick.animate b) ball ↔ Brick.overlaps b ball := by
  obtain ⟨hx, hy, hw, hh, _⟩ := Brick.animate_fields b
  unfold Brick.overlaps
  rw [hx, hy, hw, hh]

theorem Brick.update_eq (b : Brick) (g : Game) (hov : g.ball.isGameOver = false) :
    (Brick.update b g).1.isBroken = (b.isBroken || Brick.hits g.ball b) ∧
    (Brick.update b g).1.x = b.x ∧ (Brick.update b g).1.y = b.y ∧
    (Brick.update b g).1.width = b.width ∧ (Brick.update b g).1.height = b.height ∧
    (Brick.update b g).2 =
      if Brick.hits g.ball b = true then
        { g with
          ball := { g.ball with speedY := g.ball.speedY * (-1), score := g.ball.score + 1 }
          sounds := g.sounds ++ [Sound.brickBreak] }
      else g := by
  obtain ⟨hx, hy, hw, hh, hbr⟩ := Brick.animate_fields b
  have ho := Brick.overlaps_animate b g.ball
  unfold Brick.update Brick.hits
  rw [hov]
  simp only [Bool.false_eq_true, if_false, ho, hbr]
  by_cases hb : b.isBroken = true <;> by_cases hv : Brick.overlaps b g.ball <;>
    simp [hb, hv, hx, hy, hw, hh, hbr]

theorem Brick.update_broken (b : Brick) (g : Game) (hb : b.isBroken = true) :
    (Brick.update b g).2 = g ∧ (Brick.update b g).1.isBroken = true := by
  obtain ⟨_, _, _, _, hbr⟩ := Brick.animate_fields b
  unfold Brick.update
  by_cases h1 : g.ball.isGameOver = true <;> simp [h1, hb, hbr]

theorem Brick.hits_congr (ball ball' : Ball) (b : Brick) (hx : ball'.posX = ball.posX)
    (hy : ball'.posY = ball.posY) (hr : ball'.radius = ball.radius) :
    Brick.hits ball' b = Brick.hits ball b := by
  simp only [Brick.hits, Brick.overlaps, hx, hy, hr]

theorem flipped_succ (k : Nat) (s : Number) : flipped (k + 1) s = flipped k (-s) := by
  unfold flipped
  rcases Nat.mod_two_eq_zero_or_one k with h | h
  · have h2 : (k + 1) % 2 = 1 := by omega
    simp [h, h2]
  · have h2 : (k + 1) % 2 = 0 := by omega
    simp [h, h2, Number.neg_neg]

theorem updateBricks_eq :
    ∀ (bs : List Brick) (g : Game), g.ball.isGameOver = false → IsDouble g.ball.speedY →
      (updateBricks bs g).2 =
        { g with
          ball := { g.ball with
            speedY := flipped (bs.countP (Brick.hits g.ball)) g.ball.speedY
            score := g.ball.score + (bs.countP (Brick.hits g.ball) : Nat) }
          sounds := g.sounds ++ List.replicate (bs.countP (Brick.hits g.ball)) Sound.brickBreak } ∧
      (updateBricks bs g).1.map (fun b => b.isBroken) =
        bs.map (fun b => b.isBroken || Brick.hits g.ball b) ∧
      (updateBricks bs g).1.map (fun b => (b.x, b.y, b.width, b.height)) =
        bs.map (fun b => (b.x, b.y, b.width, b.height)) := by
  intro bs
  induction bs with
  | nil =>
    intro g _ _
    simp [updateBricks, flipped]
  | cons b rest ih =>
    intro g hov hd
    obtain ⟨e1, ex, ey, ew, eh, e2⟩ := Brick.update_eq b g hov
    simp only [updateBricks, List.map_cons, List.countP_cons]
    by_cases hit : Brick.hits g.ball b = true
    · rw [if_pos hit] at e2
      have hov' : (Brick.update b g).2.ball.isGameOver = false := by rw [e2]; exact hov
      have hd' : IsDouble (Brick.update b g).2.ball.speedY := by
        rw [e2]
        show IsDouble (g.ball.speedY * (-1))
        rw [Number.mul_neg_one _ hd]
        exact Number.isDouble_neg _ hd
      obtain ⟨i1, i2, i3⟩ := ih (Brick.update b g).2 hov' hd'
      have hc : ∀ c, Brick.hits (Brick.update b g).2.ball c = Brick.hits g.ball c := by
        intro c
        apply Brick.hits_congr <;> rw [e2]
      have hcf : Brick.hits (Brick.update b g).2.ball = Brick.hits g.ball := funext hc
      rw [hcf] at i1 i2
      refine ⟨?_, ?_, ?_⟩
      · rw [i1, e2]
        simp only [hit, if_true, flipped_succ, List.replicate_succ]
        have hm : g.ball.speedY * (-1) = -g.ball.speedY := Number.mul_neg_one _ hd
        simp [hm, List.append_assoc]
        omega
      · rw [i2, e1]
      · rw [i3, ex, ey, ew, eh]
    · rw [if_neg hit] at e2
      have hov' : (Brick.update b g).2.ball.isGameOver = false := by rw [e2]; exact hov
      have hd' : IsDouble (Brick.update b g).2.ball.speedY := by rw [e2]; exact hd
      obtain ⟨i1, i2, i3⟩ := ih (Brick.update b g).2 hov' hd'
      rw [e2] at i1 i2 i3
      refine ⟨?_, ?_, ?_⟩
      · rw [e2, i1]
        simp [hit]
      · rw [e2, i2, e1]
      · rw [e2, i3, ex, ey, ew, eh]

/-! ## Facts about `reset`, `handlePhase` and `Ball.update` as a whole -/

theorem BrickResetter.resetBricks_frame (g : Game) :
    BrickResetter.resetBricks g = { g with sprites := (BrickResetter.resetBricks g).sprites } := by
  unfold BrickResetter.resetBricks
  split_ifs
  · dsimp only
    split <;> rfl
  · rfl

theorem GameResetter.reset_eq (g : Game) :
    GameResetter.reset g =
      { g with
        ball := { g.ball with
          isGameOver := false, isGameWon := false, isPlaying := false, score := 0
          posX := g.player.x + g.player.width / 2
          posY := g.player.y - 15
          speedX := 2, speedY := -2, phase := PHASE_1
          phaseMessage := "Phase 1: The Beginning" }
        player := { g.player with width := g.player.originalWidth, lives := 3 }
        sprites := (BrickResetter.resetBricks g).sprites
        sounds := g.sounds ++ [Sound.gameMusicPlay, Sound.gameMusicLoop] } := by
  have hs : ∀ b : Ball, BrickResetter.resetBricks { g with ball := b } =
      { g with ball := b, sprites := (BrickResetter.resetBricks g).sprites } := by
    intro b
    unfold BrickResetter.resetBricks
    split_ifs
    · dsimp only
      split <;> rfl
    · rfl
  unfold GameResetter.reset
  dsimp only
  rw [hs]

theorem Ball.handlePhase_phase (g : Game) :
    (Ball.handlePhase g).ball.phase =
      if g.ball.score ≥ 5 ∧ g.ball.phase = 1 then (if g.ball.score ≥ 15 then 3 else 2)
      else if g.ball.score ≥ 15 ∧ g.ball.phase = 2 then 3 else g.ball.phase := by
  unfold Ball.handlePhase Ball.increaseSpeed PHASE_1 PHASE_2 PHASE_3
  dsimp only
  split_ifs <;> simp_all

theorem Ball.handlePhase_width (g : Game) :
    (Ball.handlePhase g).player.width =
      if g.ball.score ≥ 10 ∧ g.player.width = g.ball.originalPaddleWidth then
        g.ball.originalPaddleWidth / 2 else g.player.width := by
  unfold Ball.handlePhase Ball.increaseSpeed
  dsimp only
  split_ifs <;> simp_all

theorem Ball.handlePhase_speed (g : Game) (h5 : g.ball.score ≥ 5) (h1 : g.ball.phase = 1) :
    (Ball.handlePhase g).ball.speedX = 6 ∧ (Ball.handlePhase g).ball.speedY = -6 := by
  unfold Ball.handlePhase Ball.increaseSpeed Ball.increasedSpeed PHASE_1 PHASE_2 PHASE_3
  dsimp only
  split_ifs <;> simp_all

theorem Ball.beforePhase_eq (g : Game) :
    ∃ px py sx sy ip ov lv snd, Ball.move (Ball.paddle (Ball.bottom (Ball.walls g))) =
      { g with
        ball := { g.ball with
          isPlaying := ip, isGameOver := ov, posX := px, posY := py, speedX := sx, speedY := sy }
        player := { g.player with lives := lv }
        sounds := snd } := by
  obtain ⟨sx1, sy1, h1⟩ := Ball.walls_eq g
  obtain ⟨sx2, sy2, snd2, h2⟩ := Ball.bottom_eq (Ball.walls g)
  obtain ⟨sy3, snd3, h3⟩ := Ball.paddle_eq (Ball.bottom (Ball.walls g))
  refine ⟨(Ball.move (Ball.paddle (Ball.bottom (Ball.walls g)))).ball.posX,
    (Ball.move (Ball.paddle (Ball.bottom (Ball.walls g)))).ball.posY,
    (Ball.move (Ball.paddle (Ball.bottom (Ball.walls g)))).ball.speedX,
    (Ball.move (Ball.paddle (Ball.bottom (Ball.walls g)))).ball.speedY,
    (Ball.move (Ball.paddle (Ball.bottom (Ball.walls g)))).ball.isPlaying,
    (Ball.move (Ball.paddle (Ball.bottom (Ball.walls g)))).ball.isGameOver,
    (Ball.move (Ball.paddle (Ball.bottom (Ball.walls g)))).player.lives,
    (Ball.move (Ball.paddle (Ball.bottom (Ball.walls g)))).sounds, ?_⟩
  unfold Ball.move
  rw [h3, h2]
  split_ifs <;> rw [h1]

theorem Ball.advance_phase (g : Game) :
    (Ball.advance g).ball.phase =
      if g.ball.score ≥ 5 ∧ g.ball.phase = 1 then (if g.ball.score ≥ 15 then 3 else 2)
      else if g.ball.score ≥ 15 ∧ g.ball.phase = 2 then 3 else g.ball.phase := by
  obtain ⟨px, py, sx, sy, ip, ov, lv, snd, h⟩ := Ball.beforePhase_eq g
  obtain ⟨snd6, h6⟩ := Ball.winCheck_eq
    (Ball.handlePhase (Ball.move (Ball.paddle (Ball.bottom (Ball.walls g)))))
  unfold Ball.advance
  rw [h6]
  show (Ball.handlePhase _).ball.phase = _
  rw [Ball.handlePhase_phase, h]

theorem Ball.advance_width (g : Game) :
    (Ball.advance g).player.width =
      if g.ball.score ≥ 10 ∧ g.player.width = g.ball.originalPaddleWidth then
        g.ball.originalPaddleWidth / 2 else g.player.width := by
  obtain ⟨px, py, sx, sy, ip, ov, lv, snd, h⟩ := Ball.beforePhase_eq g
  obtain ⟨snd6, h6⟩ := Ball.winCheck_eq
    (Ball.handlePhase (Ball.move (Ball.paddle (Ball.bottom (Ball.walls g)))))
  unfold Ball.advance
  rw [h6]
  show (Ball.handlePhase _).player.width = _
  rw [Ball.handlePhase_width, h]

theorem Ball.advance_speed (g : Game) (h5 : g.ball.score ≥ 5) (h1 : g.ball.phase = 1) :
    (Ball.advance g).ball.speedX = 6 ∧ (Ball.advance g).ball.speedY = -6 := by
  obtain ⟨px, py, sx, sy, ip, ov, lv, snd, h⟩ := Ball.beforePhase_eq g
  obtain ⟨snd6, h6⟩ := Ball.winCheck_eq
    (Ball.handlePhase (Ball.move (Ball.paddle (Ball.bottom (Ball.walls g)))))
  unfold Ball.advance
  rw [h6]
  show (Ball.handlePhase _).ball.speedX = _ ∧ (Ball.handlePhase _).ball.speedY = _
  apply Ball.handlePhase_speed
  · rw [h]; exact h5
  · rw [h]; exact h1

theorem Ball.update_cases (g : Game) (keys : Keys) :
    Ball.update g keys =
      if g.ball.isGameOver = true then
        (if keys.r = true then Ball.advance (Ball.start (Ball.restart g keys) keys) else g)
      else if g.ball.isGameWon = true then g
      else Ball.advance (Ball.start g keys) := by
  by_cases hov : g.ball.isGameOver = true
  · by_cases hr : keys.r = true
    · rw [if_pos hov, if_pos hr]
      have hs := Ball.start_flags (Ball.restart g keys) keys
      have hre : Ball.restart g keys = { GameResetter.reset g with
          sounds := (GameResetter.reset g).sounds ++ [Sound.gameMusicPlay, Sound.gameMusicLoop] } := by
        unfold Ball.restart
        rw [if_pos ⟨hr, hov⟩]
      have h1 : (Ball.restart g keys).ball.isGameOver = false := by
        rw [hre, GameResetter.reset_eq]
      have h2 : (Ball.restart g keys).ball.isGameWon = false := by
        rw [hre, GameResetter.reset_eq]
      unfold Ball.update
      simp [hs.1, hs.2.1, h1, h2]
    · rw [if_pos hov, if_neg hr]
      have hr' : keys.r = false := by simpa using hr
      unfold Ball.update Ball.restart Ball.start
      simp [hov, hr']
  · have hov' : g.ball.isGameOver = false := by simpa using hov
    rw [if_neg hov]
    by_cases hw : g.ball.isGameWon = true
    · rw [if_pos hw]
      unfold Ball.update Ball.restart Ball.start
      simp [hov', hw]
    · have hw' : g.ball.isGameWon = false := by simpa using hw
      rw [if_neg hw]
      exact Ball.update_of_not_over g keys hov' hw'

theorem Ball.restart_eq (g : Game) (keys : Keys) (hr : keys.r = true)
    (hov : g.ball.isGameOver = true) :
    Ball.restart g keys =
      { g with
        ball := { g.ball with
          isGameOver := false, isGameWon := false, isPlaying := false, score := 0
          posX := g.player.x + g.player.width / 2
          posY := g.player.y - 15
          speedX := 2, speedY := -2, phase := PHASE_1
          phaseMessage := "Phase 1: The Beginning" }
        player := { g.player with width := g.player.originalWidth, lives := 3 }
        sprites := (BrickResetter.resetBricks g).sprites
        sounds := g.sounds ++ [Sound.gameMusicPlay, Sound.gameMusicLoop] ++
          [Sound.gameMusicPlay, Sound.gameMusicLoop] } := by
  unfold Ball.restart
  rw [if_pos ⟨hr, hov⟩]
  dsimp only
  rw [GameResetter.reset_eq]

theorem Ball.advance_frame (g : Game) :
    (Ball.advance g).player.originalWidth = g.player.originalWidth ∧
    (Ball.advance g).ball.originalPaddleWidth = g.ball.originalPaddleWidth ∧
    (Ball.advance g).ball.score = g.ball.score := by
  obtain ⟨px, py, sx, sy, ph, msg, w, snd, ha⟩ := Ball.advance_eq g
  rw [ha]
  exact ⟨rfl, rfl, rfl⟩

theorem Ball.update_width (g : Game) (keys : Keys) :
    (Ball.update g keys).player.originalWidth = g.player.originalWidth ∧
    (Ball.update g keys).ball.originalPaddleWidth = g.ball.originalPaddleWidth ∧
    (Ball.update g keys).player.width =
      if g.ball.isGameOver = true then
        (if keys.r = true then g.player.originalWidth else g.player.width)
      else if g.ball.isGameWon = true then g.player.width
      else if g.ball.score ≥ 10 ∧ g.player.width = g.ball.originalPaddleWidth then
        g.ball.originalPaddleWidth / 2 else g.player.width := by
  rw [Ball.update_cases]
  by_cases h1 : g.ball.isGameOver = true
  · by_cases h2 : keys.r = true
    · simp only [if_pos h1, if_pos h2]
      have hs := Ball.start_flags (Ball.restart g keys) keys
      have hf := Ball.advance_frame (Ball.start (Ball.restart g keys) keys)
      rw [hf.1, hf.2.1, Ball.advance_width, hs.2.2.2.2.2, hs.2.2.2.2.1, hs.2.2.1,
        Ball.restart_eq g keys h2 h1]
      simp
    · simp only [if_pos h1, if_neg h2]
      simp
  · simp only [if_neg h1]
    by_cases h3 : g.ball.isGameWon = true
    · simp only [if_pos h3]
      simp
    · simp only [if_neg h3]
      have hs := Ball.start_flags g keys
      have hf := Ball.advance_frame (Ball.start g keys)
      rw [hf.1, hf.2.1, Ball.advance_width, hs.2.2.2.2.2, hs.2.2.2.2.1, hs.2.2.1]
      exact ⟨rfl, rfl, rfl⟩

theorem Brick.update_player (b : Brick) (g : Game) :
    (Brick.update b g).2.player = g.player ∧
    (Brick.update b g).2.ball.originalPaddleWidth = g.ball.originalPaddleWidth ∧
    (Brick.update b g).2.ball.isGameOver = g.ball.isGameOver ∧
    (Brick.update b g).2.ball.isGameWon = g.ball.isGameWon := by
  unfold Brick.update
  dsimp only
  split_ifs <;> exact ⟨rfl, rfl, rfl, rfl⟩

theorem PlayerPaddle.update_frame (g : Game) (keys : Keys) :
    (PlayerPaddle.update g keys).player.width = g.player.width ∧
    (PlayerPaddle.update g keys).player.originalWidth = g.player.originalWidth ∧
    (PlayerPaddle.update g keys).ball = g.ball := by
  unfold PlayerPaddle.update
  dsimp only
  split_ifs <;> exact ⟨rfl, rfl, rfl⟩

theorem WidthInv.apply (c : Number) (op : Op) (g : Game) (h : WidthInv c g) :
    WidthInv c (op.apply g) := by
  obtain ⟨hw, ho, hp⟩ := h
  cases op with
  | ballUpdate keys =>
    obtain ⟨e1, e2, e3⟩ := Ball.update_width g keys
    refine ⟨?_, by rw [Op.apply, e1, ho], by rw [Op.apply, e2, hp]⟩
    rw [Op.apply, e3, ho, hp]
    split_ifs
    · exact Or.inl rfl
    · exact hw
    · exact hw
    · exact Or.inr rfl
    · exact hw
  | brickUpdate b =>
    obtain ⟨e1, e2, _⟩ := Brick.update_player b g
    refine ⟨?_, by rw [Op.apply, e1, ho], by rw [Op.apply, e2, hp]⟩
    rw [Op.apply, e1]
    exact hw
  | paddleUpdate keys =>
    obtain ⟨e1, e2, e3⟩ := PlayerPaddle.update_frame g keys
    refine ⟨?_, by rw [Op.apply, e2, ho], by rw [Op.apply, e3, hp]⟩
    rw [Op.apply, e1]
    exact hw
  | reset =>
    rw [Op.apply, GameResetter.reset_eq]
    exact ⟨Or.inl ho, ho, hp⟩

theorem WidthInv.run (c : Number) :
    ∀ (ops : List Op) (g : Game), WidthInv c g → WidthInv c (run ops g) := by
  intro ops
  induction ops with
  | nil => intro g h; exact h
  | cons op rest ih => intro g h; exact ih _ (WidthInv.apply c op g h)

theorem Ball.handlePhase_width_idem (g : Game) :
    (Ball.handlePhase (Ball.handlePhase g)).player.width = (Ball.handlePhase g).player.width := by
  obtain ⟨ph, sx, sy, msg, w, h⟩ := Ball.handlePhase_eq g
  have hs : (Ball.handlePhase g).ball.score = g.ball.score := by rw [h]
  have hp : (Ball.handlePhase g).ball.originalPaddleWidth = g.ball.originalPaddleWidth := by rw [h]
  rw [Ball.handlePhase_width (Ball.handlePhase g), hs, hp, Ball.handlePhase_width g]
  split_ifs <;> simp_all

/-! ## Rounding is monotone -/
namespace Number

theorem log2Aux_spec : ∀ (fuel n : Nat), n ≤ fuel → 1 ≤ n →
    2 ^ log2Aux fuel n ≤ n ∧ n < 2 ^ (log2Aux fuel n + 1) := by
  intro fuel
  induction fuel with
  | zero => intro n h1 h2; omega
  | succ k ih =>
    intro n h1 h2
    unfold log2Aux
    by_cases h : n < 2
    · rw [if_pos h]
      constructor
      · simpa using h2
      · simpa using h
    · rw [if_neg h]
      have h3 : n / 2 ≤ k := by omega
      have h4 : 1 ≤ n / 2 := by omega
      obtain ⟨i1, i2⟩ := ih (n / 2) h3 h4
      rw [pow_succ, pow_succ]
      constructor <;> omega

theorem floorLog2_spec (n : Nat) (h : 1 ≤ n) :
    2 ^ floorLog2 n ≤ n ∧ n < 2 ^ (floorLog2 n + 1) :=
  log2Aux_spec n n (le_refl n) h

theorem floorLog2_zero : floorLog2 0 = 0 := rfl

theorem floorLog2_mono (a b : Nat) (h : a ≤ b) : floorLog2 a ≤ floorLog2 b := by
  rcases Nat.eq_zero_or_pos a with h0 | h0
  · subst h0
    rw [floorLog2_zero]
    exact Nat.zero_le _
  · by_contra hc
    have hc' : floorLog2 b + 1 ≤ floorLog2 a := by omega
    obtain ⟨a1, _⟩ := floorLog2_spec a h0
    obtain ⟨_, b2⟩ := floorLog2_spec b (by omega)
    have hp : 2 ^ (floorLog2 b + 1) ≤ 2 ^ floorLog2 a := Nat.pow_le_pow_right (by decide) hc'
    omega

theorem roundHalfEven_lower (a b : Nat) : a / b ≤ roundHalfEven a b := by
  unfold roundHalfEven
  dsimp only
  split_ifs <;> omega

theorem roundHalfEven_upper (a b : Nat) : roundHalfEven a b ≤ a / b + 1 := by
  unfold roundHalfEven
  dsimp only
  split_ifs <;> omega

theorem roundHalfEven_mono (a a' b : Nat) (h : a ≤ a') :
    roundHalfEven a b ≤ roundHalfEven a' b := by
  have hd : a / b ≤ a' / b := Nat.div_le_div_right h
  rcases Nat.lt_or_ge (a / b) (a' / b) with hlt | hge
  · have := roundHalfEven_upper a b
    have := roundHalfEven_lower a' b
    omega
  · have he : a / b = a' / b := by omega
    have hm : a % b ≤ a' % b := by
      have e1 := Nat.div_add_mod a b
      have e2 := Nat.div_add_mod a' b
      rw [he] at e1
      omega
    unfold roundHalfEven
    dsimp only
    rw [he]
    split_ifs <;> omega

theorem roundNat_one_le (p : Nat) : roundNat p 1 ≤ 2 ^ 53 * 2 ^ (floorLog2 p - 52) := by
  unfold roundNat
  simp only [Nat.div_one, one_mul]
  apply Nat.mul_le_mul_right
  rcases Nat.eq_zero_or_pos p with h0 | h0
  · subst h0
    have := roundHalfEven_upper 0 (2 ^ (floorLog2 0 - 52))
    simp only [Nat.zero_div] at this
    have h53 : 1 ≤ 2 ^ 53 := Nat.one_le_two_pow
    omega
  · obtain ⟨_, h2⟩ := floorLog2_spec p h0
    have hle : floorLog2 p + 1 ≤ 53 + (floorLog2 p - 52) := by omega
    have hp : 2 ^ (floorLog2 p + 1) ≤ 2 ^ (53 + (floorLog2 p - 52)) :=
      Nat.pow_le_pow_right (by decide) hle
    have e : 2 ^ (53 + (floorLog2 p - 52)) = 2 ^ 53 * 2 ^ (floorLog2 p - 52) := pow_add _ _ _
    rw [e] at hp
    have hlt : p / 2 ^ (floorLog2 p - 52) < 2 ^ 53 := by
      rw [Nat.div_lt_iff_lt_mul (Nat.two_pow_pos _)]
      omega
    have := roundHalfEven_upper p (2 ^ (floorLog2 p - 52))
    omega

theorem le_roundNat_one (p : Nat) (h : 1 ≤ floorLog2 p - 52) :
    2 ^ 52 * 2 ^ (floorLog2 p - 52) ≤ roundNat p 1 := by
  unfold roundNat
  simp only [Nat.div_one, one_mul]
  apply Nat.mul_le_mul_right
  have h0 : 1 ≤ p := by
    rcases Nat.eq_zero_or_pos p with h0 | h0
    · subst h0
      rw [floorLog2_zero] at h
      omega
    · exact h0
  obtain ⟨h1, _⟩ := floorLog2_spec p h0
  have he : floorLog2 p = 52 + (floorLog2 p - 52) := by omega
  rw [he, pow_add] at h1
  have hge : 2 ^ 52 ≤ p / 2 ^ (52 + (floorLog2 p - 52) - 52) := by
    rw [Nat.le_div_iff_mul_le (Nat.two_pow_pos _)]
    rw [Nat.add_sub_cancel_left]
    exact h1
  rw [← he] at hge
  exact le_trans hge (roundHalfEven_lower _ _)

theorem roundNat_one_mono (p p' : Nat) (h : p ≤ p') : roundNat p 1 ≤ roundNat p' 1 := by
  have hm := floorLog2_mono p p' h
  rcases Nat.lt_or_ge (floorLog2 p - 52) (floorLog2 p' - 52) with hlt | hge
  · have u := roundNat_one_le p
    have l := le_roundNat_one p' (by omega)
    have hp : 2 ^ (floorLog2 p - 52 + 1) ≤ 2 ^ (floorLog2 p' - 52) :=
      Nat.pow_le_pow_right (by decide) hlt
    rw [pow_succ] at hp
    have e53 : (2 : Nat) ^ 53 = 2 ^ 52 * 2 := by norm_num
    calc roundNat p 1 ≤ 2 ^ 53 * 2 ^ (floorLog2 p - 52) := u
      _ = 2 ^ 52 * (2 ^ (floorLog2 p - 52) * 2) := by rw [e53]; ring
      _ ≤ 2 ^ 52 * 2 ^ (floorLog2 p' - 52) := Nat.mul_le_mul_left _ hp
      _ ≤ roundNat p' 1 := l
  · have he : floorLog2 p - 52 = floorLog2 p' - 52 := by omega
    unfold roundNat
    simp only [Nat.div_one, one_mul]
    rw [he]
    exact Nat.mul_le_mul_right _ (roundHalfEven_mono p p' _ h)

theorem round_one_mono (p p' : Int) (h : p ≤ p') : (round p 1).quanta ≤ (round p' 1).quanta := by
  unfold round
  by_cases h1 : 0 ≤ p
  · have h2 : 0 ≤ p' := le_trans h1 h
    rw [if_pos h1, if_pos h2]
    have : p.natAbs ≤ p'.natAbs := by omega
    show (roundNat p.natAbs 1 : Int) ≤ (roundNat p'.natAbs 1 : Int)
    exact_mod_cast roundNat_one_mono _ _ this
  · rw [if_neg h1]
    by_cases h2 : 0 ≤ p'
    · rw [if_pos h2]
      show -(roundNat p.natAbs 1 : Int) ≤ (roundNat p'.natAbs 1 : Int)
      omega
    · rw [if_neg h2]
      have : p'.natAbs ≤ p.natAbs := by omega
      have := roundNat_one_mono _ _ this
      show -(roundNat p.natAbs 1 : Int) ≤ -(roundNat p'.natAbs 1 : Int)
      omega

theorem le_def (a b : Number) : a ≤ b ↔ a.quanta ≤ b.quanta := Iff.rfl

theorem lt_def (a b : Number) : a < b ↔ a.quanta < b.quanta := Iff.rfl

theorem add_le_add_right (a b c : Number) (h : a ≤ b) : a + c ≤ b + c := by
  rw [le_def] at h ⊢
  exact round_one_mono _ _ (by omega)

theorem sub_le_sub_right (a b c : Number) (h : a ≤ b) : a - c ≤ b - c := by
  rw [le_def] at h ⊢
  exact round_one_mono _ _ (by omega)

theorem le_chain (a b c : Number) (h1 : a ≤ b) (h2 : b ≤ c) : a ≤ c := by
  rw [le_def] at *
  omega

theorem le_of_lt (a b : Number) (h : a < b) : a ≤ b := by
  rw [lt_def] at h
  rw [le_def]
  omega

end Number

/-! ## Facts about the position update -/

theorem Ball.start_of_playing (g : Game) (keys : Keys) (hp : g.ball.isPlaying = true) :
    Ball.start g keys = g := by
  unfold Ball.start
  simp [hp]

theorem Ball.advance_pos (g : Game) :
    (Ball.advance g).ball.posX =
      g.ball.posX + (Ball.paddle (Ball.bottom (Ball.walls g))).ball.speedX ∧
    (Ball.advance g).ball.posY =
      g.ball.posY + (Ball.paddle (Ball.bottom (Ball.walls g))).ball.speedY := by
  obtain ⟨sx1, sy1, h1⟩ := Ball.walls_eq g
  obtain ⟨sx2, sy2, snd2, h2⟩ := Ball.bottom_eq (Ball.walls g)
  obtain ⟨sy3, snd3, h3⟩ := Ball.paddle_eq (Ball.bottom (Ball.walls g))
  obtain ⟨ph, sx5, sy5, msg, w, h5⟩ :=
    Ball.handlePhase_eq (Ball.move (Ball.paddle (Ball.bottom (Ball.walls g))))
  obtain ⟨snd6, h6⟩ := Ball.winCheck_eq
    (Ball.handlePhase (Ball.move (Ball.paddle (Ball.bottom (Ball.walls g)))))
  have hx : (Ball.paddle (Ball.bottom (Ball.walls g))).ball.posX = g.ball.posX := by
    rw [h3, h2]
    split_ifs <;> rw [h1]
  have hy : (Ball.paddle (Ball.bottom (Ball.walls g))).ball.posY = g.ball.posY := by
    rw [h3, h2]
    split_ifs <;> rw [h1]
  unfold Ball.advance
  rw [h6, h5]
  unfold Ball.move
  exact ⟨by rw [← hx], by rw [← hy]⟩

theorem Ball.rules_idle (g : Game)
    (ht : ¬ g.ball.posY + g.ball.radius < 140) (hl : ¬ g.ball.posX + g.ball.radius < 130)
    (hr : ¬ g.ball.posX + g.ball.radius > g.tableWidth - 130)
    (hb : ¬ Ball.pastBottom g) (hpd : ¬ Ball.hitsPaddle g) :
    Ball.paddle (Ball.bottom (Ball.walls g)) = g := by
  have h1 : Ball.walls g = g := by
    unfold Ball.walls
    simp [ht, hl, hr]
  have h2 : Ball.bottom g = g := by
    unfold Ball.bottom
    simp [hb]
  have h3 : Ball.paddle g = g := by
    unfold Ball.paddle
    simp [hpd]
  rw [h1, h2, h3]

/-! ## Facts about the frame loop -/

theorem Ball.walls_sounds (g : Game) : (Ball.walls g).sounds = g.sounds := by
  obtain ⟨sx, sy, h⟩ := Ball.walls_eq g
  rw [h]

theorem Ball.bottom_loopEvents (g : Game) : (Ball.bottom g).loopEvents = g.loopEvents := by
  unfold Ball.bottom Game.loopEvents
  dsimp only
  split_ifs <;> simp [List.count_append]

theorem Ball.paddle_loopEvents (g : Game) : (Ball.paddle g).loopEvents = g.loopEvents := by
  unfold Ball.paddle Game.loopEvents
  split_ifs <;> simp [List.count_append]

theorem Ball.handlePhase_sounds (g : Game) : (Ball.handlePhase g).sounds = g.sounds := by
  obtain ⟨ph, sx, sy, msg, w, h⟩ := Ball.handlePhase_eq g
  rw [h]

theorem Ball.winCheck_loopEvents (g : Game) : (Ball.winCheck g).loopEvents = g.loopEvents := by
  unfold Ball.winCheck Game.loopEvents
  split_ifs <;> simp [List.count_append]

theorem Ball.advance_loopEvents (g : Game) : (Ball.advance g).loopEvents = g.loopEvents := by
  unfold Ball.advance
  rw [Ball.winCheck_loopEvents]
  unfold Game.loopEvents
  rw [Ball.handlePhase_sounds]
  show (Ball.paddle (Ball.bottom (Ball.walls g))).loopEvents = g.loopEvents
  rw [Ball.paddle_loopEvents, Ball.bottom_loopEvents]
  unfold Game.loopEvents
  rw [Ball.walls_sounds]

theorem Ball.start_frame (g : Game) (keys : Keys) :
    (Ball.start g keys).sounds = g.sounds ∧ (Ball.start g keys).sprites = g.sprites ∧
    (Ball.start g keys).showInstructions = g.showInstructions := by
  obtain ⟨sx, sy, h⟩ := Ball.start_eq g keys
  rw [h]
  split_ifs <;> exact ⟨rfl, rfl, rfl⟩

theorem Ball.advance_sprites (g : Game) :
    (Ball.advance g).sprites = g.sprites ∧
    (Ball.advance g).showInstructions = g.showInstructions := by
  obtain ⟨px, py, sx, sy, ph, msg, w, snd, ha⟩ := Ball.advance_eq g
  rw [ha]
  exact ⟨rfl, rfl⟩

/-- What a ball update outside the end states leaves alone. -/
theorem Ball.update_in_play (g : Game) (keys : Keys)
    (hov : g.ball.isGameOver = false) (hwon : g.ball.isGameWon = false) :
    (Ball.update g keys).loopEvents = g.loopEvents ∧
    (Ball.update g keys).sprites = g.sprites ∧
    (Ball.update g keys).showInstructions = g.showInstructions ∧
    Ball.update g keys = Ball.update g keys.withoutR := by
  have hs := Ball.start_frame g keys
  have ha := Ball.advance_sprites (Ball.start g keys)
  rw [Ball.update_of_not_over g keys hov hwon, Ball.update_of_not_over g _ hov hwon]
  refine ⟨?_, by rw [ha.1, hs.2.1], by rw [ha.2, hs.2.2], rfl⟩
  rw [Ball.advance_loopEvents]
  unfold Game.loopEvents
  rw [hs.1]

theorem PlayerPaddle.update_untouched (g : Game) (keys : Keys) :
    (PlayerPaddle.update g keys).sounds = g.sounds ∧
    (PlayerPaddle.update g keys).sprites = g.sprites ∧
    (PlayerPaddle.update g keys).showInstructions = g.showInstructions ∧
    (PlayerPaddle.update g keys).ball = g.ball ∧
    PlayerPaddle.update g keys = PlayerPaddle.update g keys.withoutR := by
  refine ⟨?_, ?_, ?_, ?_, rfl⟩ <;>
  · unfold PlayerPaddle.update
    dsimp only
    split_ifs <;> rfl

theorem Brick.update_trace (b : Brick) (g : Game) :
    (Brick.update b g).2.loopEvents = g.loopEvents ∧
    (Brick.update b g).2.sprites = g.sprites ∧
    (Brick.update b g).2.showInstructions = g.showInstructions := by
  unfold Brick.update Game.loopEvents
  dsimp only
  split_ifs <;> simp [List.count_append]

theorem filter_registered (bs : List Brick) :
    (registeredSprites ++ bs.map Sprite.brick).filter (fun sprite => !sprite.isBrick) =
      registeredSprites := by
  rw [List.filter_append, filter_map_brick, List.append_nil]
  rfl

theorem InstructionBackground.update_shape (g : Game) (keys : Keys) (bs : List Brick)
    (hs : g.sprites = registeredSprites ++ bs.map Sprite.brick) :
    ∃ bs' : List Brick,
      (InstructionBackground.update g keys).sprites = registeredSprites ++ bs'.map Sprite.brick ∧
      bs'.length ≤ bs.length + 24 ∧
      (InstructionBackground.update g keys).loopEvents = g.loopEvents ∧
      (InstructionBackground.update g keys).ball = g.ball ∧
      (InstructionBackground.update g keys).player = g.player ∧
      InstructionBackground.update g keys = InstructionBackground.update g keys.withoutR := by
  by_cases h : keys.enter = true ∧ g.showInstructions = true
  · have hu : InstructionBackground.update g keys =
        { g with
          showInstructions := false
          sounds := g.sounds ++ [Sound.gameMusicPlay]
          sprites := g.sprites.filter (fun sprite => !sprite.isBrick) ++
            BrickResetter.layout.map Sprite.brick } := by
      unfold InstructionBackground.update
      rw [if_pos h]
      dsimp only
      rw [BrickResetter.resetBricks_eq _ rfl]
    have hl : BrickResetter.layout.length = 24 := by decide!
    refine ⟨BrickResetter.layout, ?_, by omega, ?_, by rw [hu], by rw [hu], rfl⟩
    · rw [hu]
      show List.filter _ g.sprites ++ _ = _
      rw [hs, filter_registered]
    · rw [hu]
      unfold Game.loopEvents
      simp [List.count_append]
  · have hu : InstructionBackground.update g keys = g := by
      unfold InstructionBackground.update
      rw [if_neg h]
    refine ⟨bs, by rw [hu]; exact hs, by omega, by rw [hu], by rw [hu], by rw [hu], rfl⟩

theorem Game.updateFrom_bricks (keys keys' : Keys) :
    ∀ (bs : List Brick) (pre : List Sprite) (g : Game) (fuel : Nat),
      g.sprites = pre ++ bs.map Sprite.brick → bs.length + 1 ≤ fuel →
      ∃ (g' : Game) (bs' : List Brick),
        Game.updateFrom keys fuel pre.length g = some g' ∧
        Game.updateFrom keys' fuel pre.length g = some g' ∧
        g'.sprites = pre ++ bs'.map Sprite.brick ∧
        g'.loopEvents = g.loopEvents ∧
        g'.ball.isGameOver = g.ball.isGameOver ∧ g'.ball.isGameWon = g.ball.isGameWon ∧
        g'.player = g.player ∧ g'.showInstructions = g.showInstructions := by
  intro bs
  induction bs with
  | nil =>
    intro pre g fuel hs hf
    obtain ⟨f, rfl⟩ : ∃ f, fuel = f + 1 := ⟨fuel - 1, by omega⟩
    have hn : g.sprites.get? pre.length = none := by
      rw [hs]
      simp
    refine ⟨g, [], ?_, ?_, hs, rfl, rfl, rfl, rfl, rfl⟩
    · simp only [Game.updateFrom, hn]
    · simp only [Game.updateFrom, hn]
  | cons b rest ih =>
    intro pre g fuel hs hf
    obtain ⟨f, rfl⟩ : ∃ f, fuel = f + 1 := ⟨fuel - 1, by omega⟩
    have hn : g.sprites.get? pre.length = some (Sprite.brick b) := by
      rw [hs, List.get?_eq_getElem?, List.getElem?_append_right (Nat.le_refl _)]
      simp
    obtain ⟨r1, r2, r3⟩ := Brick.update_trace b g
    obtain ⟨p1, _, p3, p4⟩ := Brick.update_player b g
    have hstep : ∀ k : Keys, Game.updateSprite k pre.length (Sprite.brick b) g =
        { (Brick.update b g).2 with
          sprites := (pre ++ [Sprite.brick (Brick.update b g).1]) ++ rest.map Sprite.brick } := by
      intro k
      show ({ (Brick.update b g).2 with
        sprites := (Brick.update b g).2.sprites.set pre.length
          (Sprite.brick (Brick.update b g).1) } : Game) = _
      rw [r2, hs]
      simp
    have hlen : (pre ++ [Sprite.brick (Brick.update b g).1]).length = pre.length + 1 := by simp
    obtain ⟨g', bs', e1, e2, e3, e4, e5, e6, e7, e8⟩ :=
      ih (pre ++ [Sprite.brick (Brick.update b g).1])
        { (Brick.update b g).2 with
          sprites := (pre ++ [Sprite.brick (Brick.update b g).1]) ++ rest.map Sprite.brick }
        f rfl (by simp at hf; omega)
    rw [hlen] at e1 e2
    refine ⟨g', (Brick.update b g).1 :: bs', ?_, ?_, ?_, ?_, ?_, ?_, ?_, ?_⟩
    · simp only [Game.updateFrom, hn, hstep]
      exact e1
    · simp only [Game.updateFrom, hn, hstep]
      exact e2
    · rw [e3]
      simp
    · rw [e4]
      exact r1
    · rw [e5]
      exact p3
    · rw [e6]
      exact p4
    · rw [e7]
      exact p1
    · rw [e8]
      exact r3

theorem Game.updateFrom_succ (keys : Keys) (fuel i : Nat) (g : Game) (s : Sprite)
    (h : g.sprites.get? i = some s) :
    Game.updateFrom keys (fuel + 1) i g =
      Game.updateFrom keys fuel (i + 1) (Game.updateSprite keys i s g) := by
  simp only [Game.updateFrom, h]

theorem registered_get? (l : List Sprite) (i : Nat) (hi : i < 8) :
    (registeredSprites ++ l).get? i = registeredSprites.get? i := by
  rw [List.get?_eq_getElem?, List.get?_eq_getElem?]
  exact List.getElem?_append_left (by simpa [registeredSprites] using hi)

/-- One pass of `Game.update` over a page that is in neither end state: the paddle, the ball
and the instruction screen are updated in that order, then the bricks. -/
theorem Game.update_pass (g : Game) (keys : Keys) (bs : List Brick)
    (hs : g.sprites = registeredSprites ++ bs.map Sprite.brick)
    (hov : g.ball.isGameOver = false) (hwon : g.ball.isGameWon = false) :
    ∃ (g' : Game) (bs' : List Brick),
      Game.update g keys = some g' ∧ Game.update g keys.withoutR = some g' ∧
      g'.sprites = registeredSprites ++ bs'.map Sprite.brick ∧
      g'.loopEvents = g.loopEvents := by
  obtain ⟨a1, a2, a3, a4, a5⟩ := PlayerPaddle.update_untouched g keys
  have hov1 : (PlayerPaddle.update g keys).ball.isGameOver = false := by rw [a4]; exact hov
  have hwon1 : (PlayerPaddle.update g keys).ball.isGameWon = false := by rw [a4]; exact hwon
  obtain ⟨b1, b2, b3, b4⟩ := Ball.update_in_play (PlayerPaddle.update g keys) keys hov1 hwon1
  have hs2 : (Ball.update (PlayerPaddle.update g keys) keys).sprites =
      registeredSprites ++ bs.map Sprite.brick := by rw [b2, a2, hs]
  obtain ⟨bs5, c1, c2, c3, c4, c5, c6⟩ :=
    InstructionBackground.update_shape (Ball.update (PlayerPaddle.update g keys) keys) keys bs hs2
  obtain ⟨g', bs', d1, d2, d3, d4, _⟩ :=
    Game.updateFrom_bricks keys keys.withoutR bs5 registeredSprites
      (InstructionBackground.update (Ball.update (PlayerPaddle.update g keys) keys) keys)
      (bs.length + 25) c1 (by omega)
  have hlen : g.sprites.length + 25 = bs.length + 25 + 1 + 1 + 1 + 1 + 1 + 1 + 1 + 1 := by
    rw [hs]
    simp [registeredSprites]
  have hrun : ∀ k : Keys, PlayerPaddle.update g k = PlayerPaddle.update g keys →
      Ball.update (PlayerPaddle.update g keys) k = Ball.update (PlayerPaddle.update g keys) keys →
      InstructionBackground.update (Ball.update (PlayerPaddle.update g keys) keys) k =
        InstructionBackground.update (Ball.update (PlayerPaddle.update g keys) keys) keys →
      Game.update g k = Game.updateFrom k (bs.length + 25) registeredSprites.length
        (InstructionBackground.update (Ball.update (PlayerPaddle.update g keys) keys) keys) := by
    intro k k1 k2 k3
    unfold Game.update
    rw [hlen]
    rw [Game.updateFrom_succ k _ 0 g Sprite.background (by rw [hs, registered_get? _ _ (by decide)]; rfl)]
    rw [Game.updateFrom_succ k _ 1 _ Sprite.player (by
      show g.sprites.get? 1 = _
      rw [hs, registered_get? _ _ (by decide)]; rfl)]
    rw [Game.updateFrom_succ k _ 2 _ Sprite.ball (by
      show (PlayerPaddle.update g k).sprites.get? 2 = _
      rw [k1, a2, hs, registered_get? _ _ (by decide)]; rfl)]
    rw [Game.updateFrom_succ k _ 3 _ Sprite.hearts (by
      show (Ball.update (PlayerPaddle.update g k) k).sprites.get? 3 = _
      rw [k1, k2, hs2, registered_get? _ _ (by decide)]; rfl)]
    rw [Game.updateFrom_succ k _ 4 _ Sprite.coinSprite (by
      show (Ball.update (PlayerPaddle.update g k) k).sprites.get? 4 = _
      rw [k1, k2, hs2, registered_get? _ _ (by decide)]; rfl)]
    rw [Game.updateFrom_succ k _ 5 _ Sprite.instructionBackground (by
      show (Ball.update (PlayerPaddle.update g k) k).sprites.get? 5 = _
      rw [k1, k2, hs2, registered_get? _ _ (by decide)]; rfl)]
    rw [Game.updateFrom_succ k _ 6 _ Sprite.brickResetter (by
      show (InstructionBackground.update (Ball.update (PlayerPaddle.update g k) k) k).sprites.get? 6
        = _
      rw [k1, k2, k3, c1, registered_get? _ _ (by decide)]; rfl)]
    rw [Game.updateFrom_succ k _ 7 _ Sprite.gameAnimator (by
      show (InstructionBackground.update (Ball.update (PlayerPaddle.update g k) k) k).sprites.get? 7
        = _
      rw [k1, k2, k3, c1, registered_get? _ _ (by decide)]; rfl)]
    show Game.updateFrom k _ _
      (InstructionBackground.update (Ball.update (PlayerPaddle.update g k) k) k) = _
    rw [k1, k2, k3]
    rfl
  refine ⟨g', bs', ?_, ?_, d3, ?_⟩
  · rw [hrun keys rfl rfl rfl]
    exact d1
  · rw [hrun keys.withoutR a5.symm b4.symm c6.symm]
    exact d2
  · rw [d4, c3, b1]
    unfold Game.loopEvents
    rw [a1]

theorem BrickResetter.resetBricks_shape (g : Game) (bs : List Brick)
    (hs : g.sprites = registeredSprites ++ bs.map Sprite.brick) :
    ∃ bs' : List Brick,
      (BrickResetter.resetBricks g).sprites = registeredSprites ++ bs'.map Sprite.brick := by
  by_cases h : g.showInstructions = true
  · refine ⟨bs, ?_⟩
    unfold BrickResetter.resetBricks
    rw [h]
    exact hs
  · have h' : g.showInstructions = false := by simpa using h
    refine ⟨BrickResetter.layout, ?_⟩
    rw [BrickResetter.resetBricks_eq g h']
    show List.filter _ g.sprites ++ _ = _
    rw [hs, filter_registered]

theorem GameResetter.reset_loopEvents (g : Game) :
    (GameResetter.reset g).loopEvents = g.loopEvents + 1 := by
  rw [GameResetter.reset_eq]
  unfold Game.loopEvents
  simp [List.count_append]

/-! ## C1: the layout produced by `resetBricks` -/

/-- C1, as stated, fails on the page `playGame`: the claim places a brick of every row at
`x = 148 * 2.8` and one at `x = 148 * 3.4`, but after `resetBricks()` no brick has either
abscissa, because the loop variable reaches those columns as the running sums
2.8000000000000003 and 3.4000000000000004. -/
theorem C1_counterexample :
    (¬ ∃ b ∈ bricksOf (BrickResetter.resetBricks playGame).sprites, b.x = 148 * lit 28 10) ∧
    (¬ ∃ b ∈ bricksOf (BrickResetter.resetBricks playGame).sprites, b.x = 148 * lit 34 10) := by
  decide!

/-- C1, amended: with the instructions screen dismissed, `resetBricks()` changes nothing but the
sprite list, keeps every non-brick sprite, and makes the bricks exactly the 24 bricks of
`BrickResetter.layout`, all unbroken and 70 by 20: one per row `i = 1..4` and per column value
`j`, at `x = j * 148`, `y = (i + offset) * 160` in binary64 arithmetic, where `j` runs through
the running sums `1, 1 + 0.6, (1 + 0.6) + 0.6, ...` (the last of which is exactly 4) and `offset`
through `0, 0 - 0.8, (0 - 0.8) - 0.8, ...`; the first brick is at (148, 160), and a second call
reproduces the same sprite list. -/
theorem C1_resetBricks_layout (g : Game) (h : g.showInstructions = false) :
    BrickResetter.resetBricks g = { g with sprites := (BrickResetter.resetBricks g).sprites } ∧
    (BrickResetter.resetBricks g).sprites.filter (fun sprite => !sprite.isBrick) =
      g.sprites.filter (fun sprite => !sprite.isBrick) ∧
    bricksOf (BrickResetter.resetBricks g).sprites = BrickResetter.layout ∧
    BrickResetter.layout.length = 24 ∧
    (∀ b ∈ BrickResetter.layout, b.isBroken = false ∧ b.width = 70 ∧ b.height = 20) ∧
    BrickResetter.columnValues =
      [1, 1 + BrickResetter.step, 1 + BrickResetter.step + BrickResetter.step,
        1 + BrickResetter.step + BrickResetter.step + BrickResetter.step,
        1 + BrickResetter.step + BrickResetter.step + BrickResetter.step + BrickResetter.step,
        1 + BrickResetter.step + BrickResetter.step + BrickResetter.step + BrickResetter.step +
          BrickResetter.step] ∧
    BrickResetter.rowOffsets =
      [(1, 0), (1 + 1, 0 - lit 8 10), (1 + 1 + 1, 0 - lit 8 10 - lit 8 10),
        (1 + 1 + 1 + 1, 0 - lit 8 10 - lit 8 10 - lit 8 10)] ∧
    BrickResetter.layout.head? = some (Brick.new 148 160 70 20 4) ∧
    BrickResetter.resetBricks (BrickResetter.resetBricks g) = BrickResetter.resetBricks g := by
  have e := BrickResetter.resetBricks_eq g h
  have e2 := BrickResetter.resetBricks_eq (BrickResetter.resetBricks g) (by rw [e]; exact h)
  refine ⟨?_, ?_, ?_, by decide!, by decide!, by decide!, by decide!, by decide!, ?_⟩
  · rw [e]
  · rw [e]
    simp only [List.filter_append, filter_map_brick, List.append_nil, List.filter_filter,
      Bool.and_self]
  · rw [e]
    simp only [bricksOf_append, bricksOf_filter, bricksOf_map, List.nil_append]
  · rw [e2]
    rw [e]
    simp only [List.filter_append, filter_map_brick, List.append_nil, List.filter_filter,
      Bool.and_self]

/-- C1 at the page `playGame`: its bricks after `resetBricks()` are the 24 of the layout. -/
theorem C1_resetBricks_layout_witness :
    playGame.showInstructions = false ∧
      bricksOf (BrickResetter.resetBricks playGame).sprites = BrickResetter.layout :=
  ⟨rfl, (C1_resetBricks_layout playGame rfl).2.2.1⟩

/-! ## C2: lives -/

/-- C2: from a state with `isGameOver` and `isGameWon` false, one `Ball.update` takes exactly one
life when the ball is past the bottom line (`posY - radius > tableHeight - 145`, read after the
Enter-key repositioning of that call) and none otherwise; `PlayerPaddle.update` and
`Brick.update` leave `lives` alone; and when the life taken was the last one the call ends with
`isGameOver = true` and `isPlaying = false`. -/
theorem C2_lives (g : Game) (keys : Keys) (b : Brick)
    (hov : g.ball.isGameOver = false) (hwon : g.ball.isGameWon = false) :
    (Ball.update g keys).player.lives =
      (if Ball.pastBottom (Ball.start g keys) then g.player.lives - 1 else g.player.lives) ∧
    (Ball.pastBottom (Ball.start g keys) ↔
      (if keys.enter = true ∧ g.ball.isPlaying = false then g.player.y - 15 else g.ball.posY)
        - g.ball.radius > g.tableHeight - 145) ∧
    (PlayerPaddle.update g keys).player.lives = g.player.lives ∧
    (Brick.update b g).2.player.lives = g.player.lives ∧
    (Ball.pastBottom (Ball.start g keys) → g.player.lives = 1 →
      (Ball.update g keys).ball.isGameOver = true ∧
      (Ball.update g keys).ball.isPlaying = false) := by
  have hu := Ball.update_of_not_over g keys hov hwon
  have hs := Ball.start_flags g keys
  obtain ⟨px, py, sx, sy, ph, msg, w, snd, ha⟩ := Ball.advance_eq (Ball.start g keys)
  refine ⟨?_, ?_, ?_, ?_, ?_⟩
  · rw [hu, ha]
    simp [hs.2.2.2.2.2]
  · obtain ⟨sx', sy', h⟩ := Ball.start_eq g keys
    rw [h]
    unfold Ball.pastBottom
    split_ifs <;> simp_all
  · unfold PlayerPaddle.update
    dsimp only
    split_ifs <;> rfl
  · unfold Brick.update
    dsimp only
    split_ifs <;> rfl
  · intro hb h1
    rw [hu, ha]
    simp [hb, hs.2.2.2.2.2, h1]

/-- C2 at `lastLifeGame`: the ball is below the bottom line with one life left, and the update
ends with no lives and the game over. -/
theorem C2_lives_witness :
    (Ball.update lastLifeGame noKeys).player.lives = 0 ∧
      (Ball.update lastLifeGame noKeys).ball.isGameOver = true := by
  have h := C2_lives lastLifeGame noKeys (Brick.new 148 160 70 20 4) rfl rfl
  have hp : Ball.pastBottom (Ball.start lastLifeGame noKeys) := by decide!
  refine ⟨?_, (h.2.2.2.2 hp rfl).1⟩
  rw [h.1, if_pos hp]
  rfl

/-! ## C3: nothing moves once the game is over -/

/-- C3: with `isGameOver = true` and `r` not held, `Ball.update`, `Brick.update` of any brick and
`PlayerPaddle.update` return the page (and the brick) exactly as they found it. -/
theorem C3_game_over_noop (g : Game) (keys : Keys) (b : Brick)
    (hov : g.ball.isGameOver = true) (hr : keys.r = false) :
    Ball.update g keys = g ∧ Brick.update b g = (b, g) ∧ PlayerPaddle.update g keys = g := by
  refine ⟨?_, ?_, ?_⟩
  · unfold Ball.update Ball.restart Ball.start
    simp [hov, hr]
  · unfold Brick.update
    simp [hov]
  · unfold PlayerPaddle.update
    simp [hov]

/-- C3 at `shrunkGame`, a page at game over, with Enter and both arrows held. -/
theorem C3_game_over_noop_witness :
    Ball.update shrunkGame allButR = shrunkGame ∧
    Brick.update (Brick.new 148 160 70 20 4) shrunkGame =
      (Brick.new 148 160 70 20 4, shrunkGame) ∧
    PlayerPaddle.update shrunkGame allButR = shrunkGame :=
  C3_game_over_noop shrunkGame allButR (Brick.new 148 160 70 20 4) rfl rfl

/-! ## C4: bricks, score and bounce -/

/-- C4: with `isGameOver` false, updating a list of bricks one after another adds to the score
the number `k` of bricks that were unbroken and overlap the ball, leaves `speedY` with its sign
reversed `k` times, breaks exactly those bricks (a brick is broken afterwards iff it was broken
or is one of the `k`), and an already broken brick changes nothing of the page and stays
broken. -/
theorem C4_bricks (bs : List Brick) (g : Game)
    (hov : g.ball.isGameOver = false) (hd : IsDouble g.ball.speedY) :
    (updateBricks bs g).2.ball.score = g.ball.score + (bs.countP (Brick.hits g.ball) : Nat) ∧
    (updateBricks bs g).2.ball.speedY = flipped (bs.countP (Brick.hits g.ball)) g.ball.speedY ∧
    (updateBricks bs g).1.map (fun b => b.isBroken) =
      bs.map (fun b => b.isBroken || Brick.hits g.ball b) ∧
    (∀ b, Brick.hits g.ball b = true ↔
      (b.isBroken = false ∧ g.ball.posY - g.ball.radius < b.y + b.height ∧
        g.ball.posY + g.ball.radius > b.y ∧ b.x < g.ball.posX ∧ g.ball.posX < b.x + b.width)) ∧
    (∀ s, flipped 0 s = s ∧ flipped 1 s = -s ∧ ∀ k, flipped (k + 2) s = flipped k s) ∧
    (∀ (b : Brick) (g' : Game), b.isBroken = true →
      (Brick.update b g').2 = g' ∧ (Brick.update b g').1.isBroken = true) := by
  obtain ⟨h1, h2, _⟩ := updateBricks_eq bs g hov hd
  refine ⟨by rw [h1], by rw [h1], h2, ?_, ?_, fun b g' hb => Brick.update_broken b g' hb⟩
  · intro b
    simp [Brick.hits, Brick.overlaps]
  · intro s
    refine ⟨rfl, rfl, fun k => ?_⟩
    rw [flipped_succ, flipped_succ, Number.neg_neg]

/-- C4 at `downLeftGame` with `sampleBricks`: two bricks are hit, the score goes from 5 to 7 and
`speedY` is back at 2. -/
theorem C4_bricks_witness :
    (updateBricks sampleBricks downLeftGame).2.ball.score = 7 ∧
    (updateBricks sampleBricks downLeftGame).2.ball.speedY = 2 := by
  have h := C4_bricks sampleBricks downLeftGame rfl (by decide!)
  have hk : sampleBricks.countP (Brick.hits downLeftGame.ball) = 2 := by decide!
  rw [hk] at h
  exact ⟨h.1, h.2.1⟩

/-! ## C5: phases -/

/-- C5: from a phase in {1, 2, 3}, `Ball.update` without a reset ends with a phase in {1, 2, 3}
that is not smaller than before, `Brick.update` and `PlayerPaddle.update` keep the phase, and
in `Ball.update` the phase leaves 1 only if `score >= 5` and reaches 3 only if `score >= 15`. -/
theorem C5_phase (g : Game) (keys : Keys) (b : Brick)
    (hp : g.ball.phase = 1 ∨ g.ball.phase = 2 ∨ g.ball.phase = 3)
    (hnr : ¬ (keys.r = true ∧ g.ball.isGameOver = true)) :
    ((Ball.update g keys).ball.phase = 1 ∨ (Ball.update g keys).ball.phase = 2 ∨
      (Ball.update g keys).ball.phase = 3) ∧
    g.ball.phase ≤ (Ball.update g keys).ball.phase ∧
    (Brick.update b g).2.ball.phase = g.ball.phase ∧
    (PlayerPaddle.update g keys).ball.phase = g.ball.phase ∧
    (g.ball.phase = 1 → (Ball.update g keys).ball.phase ≠ 1 → g.ball.score ≥ 5) ∧
    ((Ball.update g keys).ball.phase = 3 → g.ball.phase ≠ 3 → g.ball.score ≥ 15) := by
  have hs := Ball.start_flags g keys
  have hph : (Ball.update g keys).ball.phase = g.ball.phase ∨
      (Ball.update g keys).ball.phase =
        if g.ball.score ≥ 5 ∧ g.ball.phase = 1 then (if g.ball.score ≥ 15 then 3 else 2)
        else if g.ball.score ≥ 15 ∧ g.ball.phase = 2 then 3 else g.ball.phase := by
    rw [Ball.update_cases]
    by_cases h1 : g.ball.isGameOver = true
    · have h2 : ¬ keys.r = true := fun h2 => hnr ⟨h2, h1⟩
      rw [if_pos h1, if_neg h2]
      exact Or.inl rfl
    · rw [if_neg h1]
      by_cases h3 : g.ball.isGameWon = true
      · rw [if_pos h3]
        exact Or.inl rfl
      · rw [if_neg h3]
        right
        rw [Ball.advance_phase, hs.2.2.1, hs.2.2.2.1]
  have hb : (Brick.update b g).2.ball.phase = g.ball.phase := by
    unfold Brick.update
    dsimp only
    split_ifs <;> rfl
  have hpd : (PlayerPaddle.update g keys).ball.phase = g.ball.phase := by
    unfold PlayerPaddle.update
    dsimp only
    split_ifs <;> rfl
  refine ⟨?_, ?_, hb, hpd, ?_, ?_⟩
  all_goals
    rcases hph with h | h <;> rw [h] <;> (try split_ifs) <;> omega

/-- C5 at `downLeftGame`: the phase goes from 1 to 2, and the score is indeed at least 5. -/
theorem C5_phase_witness :
    (Ball.update downLeftGame noKeys).ball.phase = 2 ∧ downLeftGame.ball.score ≥ 5 := by
  have h := C5_phase downLeftGame noKeys (Brick.new 148 160 70 20 4) (Or.inl rfl) (by decide)
  have h2 : (Ball.update downLeftGame noKeys).ball.phase ≠ 1 := by decide!
  refine ⟨?_, h.2.2.2.2.1 rfl h2⟩
  decide!

/-! ## C6: paddle width -/

/-- C6: start from a page whose paddle width equals `player.originalWidth` and
`ball.originalPaddleWidth`, and apply any sequence of operations. The width then is the original
one or its half; `Ball.update` without a reset changes it only from the original width to the
half and only when `score >= 10`, and with a reset (`r` held at game over) it leaves the width
that `GameResetter.reset` sets; `handlePhase` applied twice gives the width it gives applied
once; no operation but `GameResetter.reset` brings a width that differs from the original back
to it, and `reset` does. -/
theorem C6_paddle_width (g₀ : Game) (ops : List Op) (keys : Keys) (b : Brick)
    (h0 : g₀.player.width = g₀.player.originalWidth)
    (h1 : g₀.player.originalWidth = g₀.ball.originalPaddleWidth) :
    ((run ops g₀).player.width = g₀.player.originalWidth ∨
      (run ops g₀).player.width = g₀.player.originalWidth / 2) ∧
    (run ops g₀).player.originalWidth = g₀.player.originalWidth ∧
    (run ops g₀).ball.originalPaddleWidth = g₀.player.originalWidth ∧
    (¬ (keys.r = true ∧ (run ops g₀).ball.isGameOver = true) →
      (Ball.update (run ops g₀) keys).player.width ≠ (run ops g₀).player.width →
        (run ops g₀).player.width = g₀.player.originalWidth ∧
        (Ball.update (run ops g₀) keys).player.width = g₀.player.originalWidth / 2 ∧
        (run ops g₀).ball.score ≥ 10) ∧
    (keys.r = true ∧ (run ops g₀).ball.isGameOver = true →
      (Ball.update (run ops g₀) keys).player.width =
        (GameResetter.reset (run ops g₀)).player.width) ∧
    (Ball.handlePhase (Ball.handlePhase (run ops g₀))).player.width =
      (Ball.handlePhase (run ops g₀)).player.width ∧
    (¬ (keys.r = true ∧ (run ops g₀).ball.isGameOver = true) →
      (run ops g₀).player.width ≠ g₀.player.originalWidth →
        (Ball.update (run ops g₀) keys).player.width ≠ g₀.player.originalWidth) ∧
    (Brick.update b (run ops g₀)).2.player.width = (run ops g₀).player.width ∧
    (PlayerPaddle.update (run ops g₀) keys).player.width = (run ops g₀).player.width ∧
    (GameResetter.reset (run ops g₀)).player.width = g₀.player.originalWidth := by
  have hinv : WidthInv g₀.player.originalWidth (run ops g₀) :=
    WidthInv.run _ ops g₀ ⟨Or.inl h0, rfl, h1.symm⟩
  obtain ⟨hw, ho, hp⟩ := hinv
  obtain ⟨_, _, e3⟩ := Ball.update_width (run ops g₀) keys
  refine ⟨hw, ho, hp, ?_, ?_, Ball.handlePhase_width_idem _, ?_, ?_, ?_, ?_⟩
  · intro hnr hne
    rw [e3] at hne ⊢
    rw [hp] at hne ⊢
    split_ifs at hne ⊢ with a1 a2 a3 a4
    · exact absurd ⟨a2, a1⟩ hnr
    · exact absurd rfl hne
    · exact absurd rfl hne
    · exact ⟨a4.2, rfl, a4.1⟩
    · exact absurd rfl hne
  · intro hr
    rw [e3, if_pos hr.2, if_pos hr.1, GameResetter.reset_eq]
  · intro hnr hne
    rw [e3, hp]
    split_ifs with a1 a2 a3 a4
    · exact absurd ⟨a2, a1⟩ hnr
    · exact hne
    · exact hne
    · exact absurd a4.2 hne
    · exact hne
  · rw [(Brick.update_player b _).1]
  · exact (PlayerPaddle.update_frame _ keys).1
  · rw [GameResetter.reset_eq]
    exact ho

/-- C6 at `playGame`, after a ball update, a brick update and a reset. -/
theorem C6_paddle_width_witness :
    (run [Op.ballUpdate noKeys, Op.brickUpdate (Brick.new 380 290 70 20 4), Op.reset]
      playGame).player.width = 90 ∨
    (run [Op.ballUpdate noKeys, Op.brickUpdate (Brick.new 380 290 70 20 4), Op.reset]
      playGame).player.width = 90 / 2 :=
  (C6_paddle_width playGame
    [Op.ballUpdate noKeys, Op.brickUpdate (Brick.new 380 290 70 20 4), Op.reset]
    noKeys (Brick.new 148 160 70 20 4) rfl rfl).1

/-! ## C7: winning -/

/-- C7, as stated, fails from `lastLifeGame` (flags false, one life, score 24, ball below the
bottom line): the update sets `isGameWon`, and a further `Ball.update` with `r` held changes the
page, because that same update also set `isGameOver` and the restart test only looks at
`isGameOver`. -/
theorem C7_counterexample :
    lastLifeGame.ball.isGameOver = false ∧ lastLifeGame.ball.isGameWon = false ∧
    (Ball.update lastLifeGame noKeys).ball.isGameWon = true ∧
    Ball.update (Ball.update lastLifeGame noKeys) rKey ≠ Ball.update lastLifeGame noKeys ∧
    (Ball.update (Ball.update lastLifeGame noKeys) rKey).ball.score = 0 ∧
    (Ball.update (Ball.update lastLifeGame noKeys) rKey).ball.isGameWon = false := by
  decide!

/-- C7, amended: from a state with both flags false `Ball.update` ends with `isGameWon = true`
iff `score >= 24`; and from a state with `isGameWon = true` in which `isGameOver` is false or `r`
is not held, a further `Ball.update` returns the page unchanged, its record of audio calls
included. -/
theorem C7_win_once (g : Game) (keys : Keys) :
    (g.ball.isGameOver = false → g.ball.isGameWon = false →
      ((Ball.update g keys).ball.isGameWon = true ↔ g.ball.score ≥ 24)) ∧
    (g.ball.isGameWon = true → (g.ball.isGameOver = false ∨ keys.r = false) →
      Ball.update g keys = g) := by
  constructor
  · intro hov hwon
    have hs := Ball.start_flags g keys
    obtain ⟨px, py, sx, sy, ph, msg, w, snd, ha⟩ := Ball.advance_eq (Ball.start g keys)
    rw [Ball.update_of_not_over g keys hov hwon, ha]
    simp [hs.2.1, hs.2.2.1, hwon]
  · intro hwon h
    rw [Ball.update_cases]
    rcases h with h | h
    · simp [h, hwon]
    · simp [h, hwon]

/-- C7 at `lastLifeGame`, and at the same page already won with `r` held. -/
theorem C7_win_once_witness :
    ((Ball.update lastLifeGame noKeys).ball.isGameWon = true ↔ lastLifeGame.ball.score ≥ 24) ∧
    Ball.update { lastLifeGame with ball := { lastLifeGame.ball with isGameWon := true } } rKey =
      { lastLifeGame with ball := { lastLifeGame.ball with isGameWon := true } } :=
  ⟨(C7_win_once lastLifeGame noKeys).1 rfl rfl,
    (C7_win_once { lastLifeGame with ball := { lastLifeGame.ball with isGameWon := true } }
      rKey).2 rfl (Or.inl rfl)⟩

/-! ## C8: where `reset` puts the ball -/

/-- C8: `reset()` puts the ball at `player.x + player.width / 2` with the width the paddle had
before the call, and only then restores the width. So from `shrunkGame` (paddle at 300, halved
to 45, original width 90) the ball lands at 322.5 while the centre of the restored paddle is at
345: the ball is not above the centre of the paddle as it is after the reset. -/
theorem C8_reset_ball_position :
    (∀ g : Game,
      (GameResetter.reset g).ball.posX = g.player.x + g.player.width / 2 ∧
      (GameResetter.reset g).ball.posY = (GameResetter.reset g).player.y - 15 ∧
      (GameResetter.reset g).player.x = g.player.x ∧
      (GameResetter.reset g).player.width = g.player.originalWidth) ∧
    shrunkGame.player.x = 300 ∧ shrunkGame.player.width = 45 ∧
    shrunkGame.player.originalWidth = 90 ∧
    (GameResetter.reset shrunkGame).player.width = 90 ∧
    (GameResetter.reset shrunkGame).ball.posX = lit 3225 10 ∧
    (GameResetter.reset shrunkGame).player.x + (GameResetter.reset shrunkGame).player.width / 2
      = 345 ∧
    (GameResetter.reset shrunkGame).ball.posX ≠
      (GameResetter.reset shrunkGame).player.x +
        (GameResetter.reset shrunkGame).player.width / 2 := by
  refine ⟨?_, by decide!, by decide!, by decide!, by decide!, by decide!, by decide!,
    by decide!⟩
  intro g
  rw [GameResetter.reset_eq]
  exact ⟨rfl, rfl, rfl, rfl⟩

/-! ## C9: the speed-up of phase 2 -/

/-- C9, as stated, fails at `downLeftGame` (phase 1, score 5): just before the transition the
ball moves left and down, with velocity (-2, 2), and the update leaves it at (6, -6), right and
up, not at (-6, 6). -/
theorem C9_counterexample :
    downLeftGame.ball.phase = 1 ∧ downLeftGame.ball.score = 5 ∧
    downLeftGame.ball.isGameOver = false ∧ downLeftGame.ball.isGameWon = false ∧
    (Ball.move (Ball.paddle (Ball.bottom (Ball.walls downLeftGame)))).ball.speedX = -2 ∧
    (Ball.move (Ball.paddle (Ball.bottom (Ball.walls downLeftGame)))).ball.speedY = 2 ∧
    (Ball.update downLeftGame noKeys).ball.phase = 2 ∧
    (Ball.update downLeftGame noKeys).ball.speedX = 6 ∧
    (Ball.update downLeftGame noKeys).ball.speedY = -6 ∧
    (Ball.update downLeftGame noKeys).ball.speedX ≠ -6 ∧
    (Ball.update downLeftGame noKeys).ball.speedY ≠ 6 := by
  decide!

/-- C9, amended: from phase 1 with `5 <= score < 15` and both flags false, `Ball.update` ends in
phase 2 with velocity exactly (6, -6), whatever the direction of travel was. -/
theorem C9_phase_two_speed (g : Game) (keys : Keys)
    (hp : g.ball.phase = 1) (h5 : 5 ≤ g.ball.score) (h15 : g.ball.score < 15)
    (hov : g.ball.isGameOver = false) (hwon : g.ball.isGameWon = false) :
    (Ball.update g keys).ball.phase = 2 ∧
    (Ball.update g keys).ball.speedX = 6 ∧
    (Ball.update g keys).ball.speedY = -6 := by
  have hs := Ball.start_flags g keys
  rw [Ball.update_of_not_over g keys hov hwon]
  have h5' : (Ball.start g keys).ball.score ≥ 5 := by rw [hs.2.2.1]; exact h5
  have h1' : (Ball.start g keys).ball.phase = 1 := by rw [hs.2.2.2.1]; exact hp
  refine ⟨?_, Ball.advance_speed _ h5' h1'⟩
  rw [Ball.advance_phase, hs.2.2.1, hs.2.2.2.1]
  have h15' : ¬ g.ball.score ≥ 15 := by omega
  simp [h5, hp, h15']

/-- C9 at `downLeftGame`. -/
theorem C9_phase_two_speed_witness :
    (Ball.update downLeftGame noKeys).ball.phase = 2 ∧
    (Ball.update downLeftGame noKeys).ball.speedX = 6 ∧
    (Ball.update downLeftGame noKeys).ball.speedY = -6 :=
  C9_phase_two_speed downLeftGame noKeys rfl (by decide) (by decide) rfl rfl

/-! ## C10: the two end flags -/

/-- C10, as stated, fails at `lastLifeGame` (flags false, one life, score 24, ball below the
bottom line): one `Ball.update` ends with `isGameOver` and `isGameWon` both true. -/
theorem C10_counterexample :
    ¬ (lastLifeGame.ball.isGameOver = true ∧ lastLifeGame.ball.isGameWon = true) ∧
    (Ball.update lastLifeGame noKeys).ball.isGameOver = true ∧
    (Ball.update lastLifeGame noKeys).ball.isGameWon = true := by
  decide!

/-- C10, amended: from a state in which the flags are not both true, `Brick.update`,
`PlayerPaddle.update` and `GameResetter.reset` yield such a state, and so does `Ball.update`
unless it is called with both flags false, `lives = 1`, `score >= 24` and the ball past the
bottom line (read after the Enter-key repositioning of that call). -/
theorem C10_flags (g : Game) (keys : Keys) (b : Brick)
    (h : ¬ (g.ball.isGameOver = true ∧ g.ball.isGameWon = true)) :
    (¬ (g.ball.isGameOver = false ∧ g.ball.isGameWon = false ∧ g.player.lives = 1 ∧
          g.ball.score ≥ 24 ∧ Ball.pastBottom (Ball.start g keys)) →
      ¬ ((Ball.update g keys).ball.isGameOver = true ∧
          (Ball.update g keys).ball.isGameWon = true)) ∧
    ¬ ((Brick.update b g).2.ball.isGameOver = true ∧
        (Brick.update b g).2.ball.isGameWon = true) ∧
    ¬ ((PlayerPaddle.update g keys).ball.isGameOver = true ∧
        (PlayerPaddle.update g keys).ball.isGameWon = true) ∧
    ¬ ((GameResetter.reset g).ball.isGameOver = true ∧
        (GameResetter.reset g).ball.isGameWon = true) := by
  refine ⟨?_, ?_, ?_, ?_⟩
  · intro hx
    rw [Ball.update_cases]
    by_cases h1 : g.ball.isGameOver = true
    · by_cases h2 : keys.r = true
      · rw [if_pos h1, if_pos h2]
        have hs := Ball.start_flags (Ball.restart g keys) keys
        obtain ⟨px, py, sx, sy, ph, msg, w, snd, ha⟩ :=
          Ball.advance_eq (Ball.start (Ball.restart g keys) keys)
        rw [ha]
        have e := Ball.restart_eq g keys h2 h1
        have hsc : (Ball.start (Ball.restart g keys) keys).ball.score = 0 := by
          rw [hs.2.2.1, e]
        have hw : (Ball.start (Ball.restart g keys) keys).ball.isGameWon = false := by
          rw [hs.2.1, e]
        simp [hsc, hw]
      · rw [if_pos h1, if_neg h2]
        exact h
    · rw [if_neg h1]
      by_cases h3 : g.ball.isGameWon = true
      · rw [if_pos h3]
        exact h
      · rw [if_neg h3]
        have hs := Ball.start_flags g keys
        obtain ⟨px, py, sx, sy, ph, msg, w, snd, ha⟩ := Ball.advance_eq (Ball.start g keys)
        rw [ha]
        simp only [hs.1, hs.2.1, hs.2.2.1, hs.2.2.2.2.2]
        have h1' : g.ball.isGameOver = false := by simpa using h1
        have h3' : g.ball.isGameWon = false := by simpa using h3
        simp only [h1', h3', Bool.false_or, Bool.and_eq_true, decide_eq_true_eq]
        rintro ⟨⟨hb, hl⟩, hsc⟩
        exact hx ⟨h1', h3', by omega, hsc, hb⟩
  · obtain ⟨_, _, e1, e2⟩ := Brick.update_player b g
    rw [e1, e2]
    exact h
  · rw [(PlayerPaddle.update_frame g keys).2.2]
    exact h
  · rw [GameResetter.reset_eq]
    simp

/-- C10 at `downLeftGame`, where three lives are left. -/
theorem C10_flags_witness :
    ¬ ((Ball.update downLeftGame noKeys).ball.isGameOver = true ∧
        (Ball.update downLeftGame noKeys).ball.isGameWon = true) :=
  (C10_flags downLeftGame noKeys (Brick.new 148 160 70 20 4) (by decide)).1
    (fun h => absurd h.2.2.1 (by decide))

/-! ## C11: one integration step per update -/

/-- C11: with `isPlaying` true and both end flags false, one `Ball.update` moves the ball by
one step: each coordinate after the call is the coordinate before it plus (the `+` of
JavaScript) the velocity left by the wall, bottom-exit and paddle blocks of that call; and when
none of those tests holds, the velocity added is the one held before the call. -/
theorem C11_integration (g : Game) (keys : Keys) (hp : g.ball.isPlaying = true)
    (hov : g.ball.isGameOver = false) (hwon : g.ball.isGameWon = false) :
    (Ball.update g keys).ball.posX =
      g.ball.posX + (Ball.paddle (Ball.bottom (Ball.walls g))).ball.speedX ∧
    (Ball.update g keys).ball.posY =
      g.ball.posY + (Ball.paddle (Ball.bottom (Ball.walls g))).ball.speedY ∧
    (¬ g.ball.posY + g.ball.radius < 140 → ¬ g.ball.posX + g.ball.radius < 130 →
      ¬ g.ball.posX + g.ball.radius > g.tableWidth - 130 →
      ¬ Ball.pastBottom g → ¬ Ball.hitsPaddle g →
        (Ball.update g keys).ball.posX = g.ball.posX + g.ball.speedX ∧
        (Ball.update g keys).ball.posY = g.ball.posY + g.ball.speedY) := by
  have hu : Ball.update g keys = Ball.advance g := by
    rw [Ball.update_of_not_over g keys hov hwon, Ball.start_of_playing g keys hp]
  obtain ⟨hx, hy⟩ := Ball.advance_pos g
  rw [hu]
  refine ⟨hx, hy, ?_⟩
  intro ht hl hr hb hpd
  rw [hx, hy, Ball.rules_idle g ht hl hr hb hpd]
  exact ⟨rfl, rfl⟩

/-- C11 at `downLeftGame`: no rule fires and the ball goes from (400, 300) to (398, 302). -/
theorem C11_integration_witness :
    (Ball.update downLeftGame noKeys).ball.posX = 398 ∧
    (Ball.update downLeftGame noKeys).ball.posY = 302 := by
  have h := (C11_integration downLeftGame noKeys rfl rfl rfl).2.2
    (by decide!) (by decide!) (by decide!) (by decide!) (by decide!)
  rw [h.1, h.2]
  decide!

/-! ## C12: the lane of the paddle -/

/-- C12, as stated, fails: a paddle at 589 with the right arrow held goes to 594, beyond 590,
and a paddle at 121 with the left arrow held goes to 116, below 120.62; each bound is tested
before the step of 5 is taken. -/
theorem C12_counterexample :
    lit 12062 100 ≤ (paddleAt 589).player.x ∧ (paddleAt 589).player.x ≤ 590 ∧
    (paddleAt 589).player.moveSpeed = 5 ∧
    (PlayerPaddle.update (paddleAt 589) rightKey).player.x = 594 ∧
    ¬ (PlayerPaddle.update (paddleAt 589) rightKey).player.x ≤ 590 ∧
    lit 12062 100 ≤ (paddleAt 121).player.x ∧ (paddleAt 121).player.x ≤ 590 ∧
    (PlayerPaddle.update (paddleAt 121) leftKey).player.x = 116 ∧
    ¬ lit 12062 100 ≤ (PlayerPaddle.update (paddleAt 121) leftKey).player.x := by
  decide!

/-- C12, amended: with the configured step of 5, a paddle whose `x` lies between `120.62 - 5`
and `590 + 5` (a range that holds the lane from 120.62 to 590) still lies in that range after
`PlayerPaddle.update`, whatever keys are held; and when the game is over `x` is unchanged. -/
theorem C12_paddle_lane (g : Game) (keys : Keys) (hm : g.player.moveSpeed = 5)
    (hlo : lit 12062 100 - 5 ≤ g.player.x) (hhi : g.player.x ≤ 590 + 5) :
    lit 12062 100 - 5 ≤ (PlayerPaddle.update g keys).player.x ∧
    (PlayerPaddle.update g keys).player.x ≤ 590 + 5 ∧
    (lit 12062 100 - 5 ≤ lit 12062 100 ∧ (590 : Number) ≤ 590 + 5) ∧
    (g.ball.isGameOver = true → (PlayerPaddle.update g keys).player.x = g.player.x) := by
  have c1 : lit 12062 100 - 5 ≤ lit 12062 100 - 5 + 5 := by decide!
  have c2 : (590 : Number) + 5 - 5 ≤ 590 + 5 := by decide!
  have c3 : lit 12062 100 - 5 ≤ lit 12062 100 ∧ (590 : Number) ≤ 590 + 5 := by decide!
  -- the paddle after the right-arrow block
  have hr : ∀ x1 : Number,
      (x1 = g.player.x + 5 ∧ g.player.x < 590) ∨ x1 = g.player.x →
        lit 12062 100 - 5 ≤ x1 ∧ x1 ≤ 590 + 5 := by
    rintro x1 (⟨rfl, hlt⟩ | rfl)
    · constructor
      · exact Number.le_chain _ _ _ c1 (Number.add_le_add_right _ _ 5 hlo)
      · exact Number.add_le_add_right _ _ 5 (Number.le_of_lt _ _ hlt)
    · exact ⟨hlo, hhi⟩
  -- the paddle after the left-arrow block
  have hl : ∀ x1 x2 : Number, lit 12062 100 - 5 ≤ x1 ∧ x1 ≤ 590 + 5 →
      (x2 = x1 - 5 ∧ lit 12062 100 ≤ x1) ∨ x2 = x1 →
        lit 12062 100 - 5 ≤ x2 ∧ x2 ≤ 590 + 5 := by
    rintro x1 x2 ⟨b1, b2⟩ (⟨rfl, hge⟩ | rfl)
    · constructor
      · exact Number.sub_le_sub_right _ _ 5 hge
      · exact Number.le_chain _ _ _ (Number.sub_le_sub_right _ _ 5 b2) c2
    · exact ⟨b1, b2⟩
  have key : ∃ x1 x2 : Number,
      ((x1 = g.player.x + 5 ∧ g.player.x < 590) ∨ x1 = g.player.x) ∧
      ((x2 = x1 - 5 ∧ lit 12062 100 ≤ x1) ∨ x2 = x1) ∧
      (PlayerPaddle.update g keys).player.x = x2 := by
    obtain ⟨⟨x, y, w, h, ms, lives, ow⟩, ball, si, sp, tw, th, snd⟩ := g
    dsimp only at hm
    subst hm
    unfold PlayerPaddle.update
    dsimp only
    split_ifs <;>
      first
      | exact ⟨_, _, Or.inr rfl, Or.inr rfl, rfl⟩
      | exact ⟨_, _, Or.inl ⟨rfl, by assumption⟩, Or.inr rfl, rfl⟩
      | exact ⟨_, _, Or.inr rfl, Or.inl ⟨rfl, by assumption⟩, rfl⟩
      | exact ⟨_, _, Or.inl ⟨rfl, by assumption⟩, Or.inl ⟨rfl, by assumption⟩, rfl⟩
  obtain ⟨x1, x2, k1, k2, k3⟩ := key
  have hb := hl x1 x2 (hr x1 k1) k2
  refine ⟨by rw [k3]; exact hb.1, by rw [k3]; exact hb.2, c3, ?_⟩
  intro hov
  unfold PlayerPaddle.update
  rw [if_pos hov]

/-- C12 at the paddle at 589 with the right arrow held. -/
theorem C12_paddle_lane_witness :
    (PlayerPaddle.update (paddleAt 589) rightKey).player.x ≤ 590 + 5 :=
  (C12_paddle_lane (paddleAt 589) rightKey rfl (by decide!) (by decide!)).2.1

/-! ## C13: when a frame restarts the game -/

/-- C13, as stated, fails at `wonGame`, where `isGameWon` is true and `isGameOver` false: with
`r` held the frame step is `GameResetter.reset()`, which takes the score from 24 to 0, the lives
from 2 to 3, the phase from 3 to 1 and clears `isGameWon`. -/
theorem C13_counterexample :
    wonGame.ball.isGameOver = false ∧ wonGame.ball.isGameWon = true ∧
    GameAnimator.animate wonGame rKey = some (GameResetter.reset wonGame) ∧
    wonGame.ball.score = 24 ∧ (GameResetter.reset wonGame).ball.score = 0 ∧
    wonGame.player.lives = 2 ∧ (GameResetter.reset wonGame).player.lives = 3 ∧
    wonGame.ball.phase = 3 ∧ (GameResetter.reset wonGame).ball.phase = 1 ∧
    (GameResetter.reset wonGame).ball.isGameWon = false := by
  decide!

/-- C13, amended: on a page whose sprite list is the eight registered sprites followed by
bricks, the frame step `GameAnimator.animate` ends, keeps that shape, and leaves the count of
`gameMusic.loop = true` assignments alone unless `isGameOver` or `isGameWon` was true before the
step, while every call of `reset()` adds one: so `reset()` is called only from a state that is
over or won. With both flags false the step is `Game.update()` and is the same with `r` held as
with `r` released; with a flag true it is `reset()` if `keys['r']` holds and nothing otherwise. -/
theorem C13_restart (g : Game) (keys : Keys) (bs : List Brick)
    (hs : g.sprites = registeredSprites ++ bs.map Sprite.brick) :
    (∃ (g' : Game) (bs' : List Brick), GameAnimator.animate g keys = some g' ∧
      g'.sprites = registeredSprites ++ bs'.map Sprite.brick ∧
      (g'.loopEvents ≠ g.loopEvents → g.ball.isGameOver = true ∨ g.ball.isGameWon = true)) ∧
    (∀ g₁ : Game, (GameResetter.reset g₁).loopEvents = g₁.loopEvents + 1) ∧
    (g.ball.isGameOver = false → g.ball.isGameWon = false →
      GameAnimator.animate g keys = Game.update g keys ∧
      GameAnimator.animate g keys = GameAnimator.animate g keys.withoutR) ∧
    (g.ball.isGameOver = true ∨ g.ball.isGameWon = true →
      GameAnimator.animate g keys =
        some (if keys.rValue = true then GameResetter.reset g else g)) := by
  have hend : g.ball.isGameOver = true ∨ g.ball.isGameWon = true →
      GameAnimator.animate g keys =
        some (if keys.rValue = true then GameResetter.reset g else g) := by
    intro h
    unfold GameAnimator.animate
    by_cases h1 : g.ball.isGameOver = true
    · rw [if_pos h1]
    · rw [if_neg h1, if_pos (h.resolve_left h1)]
  have hplay : g.ball.isGameOver = false → g.ball.isGameWon = false →
      ∀ k : Keys, GameAnimator.animate g k = Game.update g k := by
    intro h1 h2 k
    unfold GameAnimator.animate
    simp [h1, h2]
  refine ⟨?_, GameResetter.reset_loopEvents, ?_, hend⟩
  · by_cases hf : g.ball.isGameOver = true ∨ g.ball.isGameWon = true
    · by_cases hr : keys.rValue = true
      · obtain ⟨bs', hb⟩ := BrickResetter.resetBricks_shape g bs hs
        refine ⟨GameResetter.reset g, bs', ?_, ?_, fun _ => hf⟩
        · rw [hend hf, if_pos hr]
        · rw [GameResetter.reset_eq]
          exact hb
      · refine ⟨g, bs, ?_, hs, fun _ => hf⟩
        rw [hend hf, if_neg hr]
    · have h1 : g.ball.isGameOver = false := by
        cases h : g.ball.isGameOver
        · rfl
        · exact absurd (Or.inl h) hf
      have h2 : g.ball.isGameWon = false := by
        cases h : g.ball.isGameWon
        · rfl
        · exact absurd (Or.inr h) hf
      obtain ⟨g', bs', e1, _, e3, e4⟩ := Game.update_pass g keys bs hs h1 h2
      refine ⟨g', bs', ?_, e3, fun hne => absurd e4 hne⟩
      rw [hplay h1 h2, e1]
  · intro h1 h2
    obtain ⟨g', bs', e1, e2, _, _⟩ := Game.update_pass g keys bs hs h1 h2
    refine ⟨hplay h1 h2 keys, ?_⟩
    rw [hplay h1 h2 keys, hplay h1 h2 keys.withoutR, e1, e2]

/-- C13 at `playGame`: the frame with `r` held is the frame with no key held. -/
theorem C13_restart_witness :
    GameAnimator.animate playGame rKey = GameAnimator.animate playGame noKeys :=
  ((C13_restart playGame rKey [] rfl).2.2.1 rfl rfl).2

/-! ## C14: the instructions screen -/

/-- C14, as stated, fails on the initial page, where the instructions are showing: with no key
held `Ball.update` moves the ball by its velocity (2, -2). -/
theorem C14_counterexample :
    (initialGame 800 600).showInstructions = true ∧ noKeys.enter = false ∧
    (Ball.update (initialGame 800 600) noKeys).ball.posX ≠ (initialGame 800 600).ball.posX ∧
    (Ball.update (initialGame 800 600) noKeys).ball.posY ≠ (initialGame 800 600).ball.posY ∧
    (Ball.update (initialGame 800 600) noKeys).ball.posX = (initialGame 800 600).ball.posX + 2 ∧
    (Ball.update (initialGame 800 600) noKeys).ball.posY =
      (initialGame 800 600).ball.posY + (-2) := by
  decide!

/-- C14, amended: with the instructions showing and Enter not held,
`InstructionBackground.update` and `BrickResetter.resetBricks()` return the page unchanged (no
brick is added), `PlayerPaddle.update` leaves the ball and the lives alone, and `Ball.update`
leaves the score alone unless it restarts the game (`r` held at game over); the ball is not
held back: with both end flags false `Ball.update` moves it by the velocity its wall, bottom
and paddle blocks leave, and takes a life when the ball is past the bottom line. -/
theorem C14_instructions (g : Game) (keys : Keys)
    (hsi : g.showInstructions = true) (he : keys.enter = false) :
    InstructionBackground.update g keys = g ∧
    BrickResetter.resetBricks g = g ∧
    (PlayerPaddle.update g keys).ball = g.ball ∧
    (PlayerPaddle.update g keys).player.lives = g.player.lives ∧
    (¬ (keys.r = true ∧ g.ball.isGameOver = true) →
      (Ball.update g keys).ball.score = g.ball.score) ∧
    (g.ball.isGameOver = false → g.ball.isGameWon = false →
      (Ball.update g keys).ball.posX =
        g.ball.posX + (Ball.paddle (Ball.bottom (Ball.walls g))).ball.speedX ∧
      (Ball.update g keys).ball.posY =
        g.ball.posY + (Ball.paddle (Ball.bottom (Ball.walls g))).ball.speedY ∧
      (Ball.update g keys).player.lives =
        (if Ball.pastBottom g then g.player.lives - 1 else g.player.lives)) := by
  have hst : Ball.start g keys = g := by
    unfold Ball.start
    simp [he]
  refine ⟨?_, ?_, (PlayerPaddle.update_untouched g keys).2.2.2.1, ?_, ?_, ?_⟩
  · unfold InstructionBackground.update
    simp [he]
  · unfold BrickResetter.resetBricks
    simp [hsi]
  · unfold PlayerPaddle.update
    dsimp only
    split_ifs <;> rfl
  · intro hnr
    rw [Ball.update_cases]
    by_cases h1 : g.ball.isGameOver = true
    · have h2 : ¬ keys.r = true := fun h2 => hnr ⟨h2, h1⟩
      rw [if_pos h1, if_neg h2]
    · rw [if_neg h1]
      by_cases h3 : g.ball.isGameWon = true
      · rw [if_pos h3]
      · rw [if_neg h3, hst]
        exact (Ball.advance_frame g).2.2
  · intro hov hwon
    have hu : Ball.update g keys = Ball.advance g := by
      rw [Ball.update_of_not_over g keys hov hwon, hst]
    obtain ⟨hx, hy⟩ := Ball.advance_pos g
    obtain ⟨px, py, sx, sy, ph, msg, w, snd, ha⟩ := Ball.advance_eq g
    rw [hu]
    refine ⟨hx, hy, ?_⟩
    rw [ha]

/-- C14 on the initial page with no key held. -/
theorem C14_instructions_witness :
    InstructionBackground.update (initialGame 800 600) noKeys = initialGame 800 600 ∧
    BrickResetter.resetBricks (initialGame 800 600) = initialGame 800 600 :=
  ⟨(C14_instructions (initialGame 800 600) noKeys rfl rfl).1,
    (C14_instructions (initialGame 800 600) noKeys rfl rfl).2.1⟩

end BreakBricks
